import Mathlib

/-!
Shallow embedding of the survey-to-document-variable transformation and
template-selection engine of the Formation-Questionnaire repository
(the `lib/document-generator.ts` module).  JavaScript numbers are modelled
as exact rationals extended with NaN and the signed infinities; the host
collator (`localeCompare`), the clock and the random suffix used by
`generateDocumentNumber` are explicit parameters of the embedding.
-/

set_option maxRecDepth 8000

namespace DocGen

/-! ## JavaScript primitive helpers -/

/-- ASCII whitespace recognised by the JS `\s` class and `String.prototype.trim`
(space, tab, LF, VT, FF, CR). -/
def jsIsWS (c : Char) : Bool :=
  c = ' ' || c = Char.ofNat 9 || c = Char.ofNat 10 || c = Char.ofNat 11 ||
  c = Char.ofNat 12 || c = Char.ofNat 13

def isDigitCh (c : Char) : Bool := decide ('0' ≤ c) && decide (c ≤ '9')

def digitVal (c : Char) : ℕ := c.toNat - 48

def natOfDigits (l : List Char) : ℕ :=
  l.foldl (fun a c => 10 * a + digitVal c) 0

/-- `String.prototype.trim`. -/
def jsTrim (s : String) : String :=
  ⟨(s.toList.dropWhile jsIsWS).reverse.dropWhile jsIsWS |>.reverse⟩

/-- ASCII `toLowerCase` (the engine only lower-cases ASCII data). -/
def lowerCh (c : Char) : Char :=
  if decide ('A' ≤ c) && decide (c ≤ 'Z') then Char.ofNat (c.toNat + 32) else c

def upperCh (c : Char) : Char :=
  if decide ('a' ≤ c) && decide (c ≤ 'z') then Char.ofNat (c.toNat - 32) else c

def jsToLower (s : String) : String := ⟨s.toList.map lowerCh⟩

def jsToUpper (s : String) : String := ⟨s.toList.map upperCh⟩

/-- List prefix test over characters. -/
def listPrefixOf : List Char → List Char → Bool
  | [], _ => true
  | _ :: _, [] => false
  | a :: l, b :: m => a = b && listPrefixOf l m

/-- Substring containment (JS `String.prototype.includes`). -/
def listContainsSub (sub : List Char) : List Char → Bool
  | [] => listPrefixOf sub []
  | c :: l => listPrefixOf sub (c :: l) || listContainsSub sub l

def jsIncludes (s sub : String) : Bool := listContainsSub sub.toList s.toList

/-- Split a character list at every occurrence of `sep`. -/
def splitOnCh (sep : Char) (l : List Char) : List (List Char) :=
  l.foldr (fun c acc =>
    match acc with
    | [] => if c = sep then [[], []] else [[c]]
    | cur :: rest => if c = sep then [] :: cur :: rest else (c :: cur) :: rest) [[]]

/-- JS number: NaN, the signed infinities, or a finite value modelled as an
exact rational (double rounding and overflow are not modelled). -/
inductive JSNum where
  | nan
  | posInf
  | negInf
  | fin (q : ℚ)
deriving DecidableEq

def JSNum.isNaN : JSNum → Bool
  | .nan => true
  | _ => false

def JSNum.ltb : JSNum → JSNum → Bool
  | .fin a, .fin b => decide (a < b)
  | .negInf, .negInf => false
  | .negInf, _ => true
  | _, .negInf => false
  | .posInf, _ => false
  | .fin _, .posInf => true
  | _, _ => false

def JSNum.leb (a b : JSNum) : Bool :=
  match a, b with
  | .nan, _ => false
  | _, .nan => false
  | x, y => !(JSNum.ltb y x)

def JSNum.neg : JSNum → JSNum
  | .nan => .nan
  | .posInf => .negInf
  | .negInf => .posInf
  | .fin q => .fin (-q)

/-- Number of times `p` divides `n`, by fuel recursion (`n` itself bounds the
exponent, so the fuel never runs out). -/
def factorCountAux (p : ℕ) : ℕ → ℕ → ℕ
  | 0, _ => 0
  | fuel + 1, n => if 2 ≤ p ∧ 0 < n ∧ n % p = 0 then factorCountAux p fuel (n / p) + 1 else 0

/-- Number of times `p` divides `n` (0 for `n = 0` or `p < 2`). -/
def factorCount (p : ℕ) (n : ℕ) : ℕ := factorCountAux p n n

def padLeftZeros (s : List Char) (k : ℕ) : List Char :=
  List.replicate (k - s.length) '0' ++ s

def natDigits (n : ℕ) : List Char := (Nat.toDigits 10 n)

/-- Decimal rendering of a rational, matching JS `Number.prototype.toString`
(ECMA-262 Number::toString, radix 10): plain decimal notation, switching to
exponential notation (`1e-7`, `1e+21`) when the decimal exponent of the
value leaves the interval (-6, 21]. A terminating expansion is rendered
exactly; a non-terminating one is truncated to 17 fractional digits,
approximating host float printing. -/
def qToString (q : ℚ) : String :=
  let sign := if q < 0 then "-" else ""
  let n := q.num.natAbs
  let d := q.den
  let a := factorCount 2 d
  let b := factorCount 5 d
  let k := if d / (2 ^ a * 5 ^ b) = 1 then max a b else 17
  let m := n * 10 ^ k / d
  let ip := m / 10 ^ k
  let fp := m % 10 ^ k
  let digitsAll := natDigits ip ++ padLeftZeros (natDigits fp) k
  let sig := ((digitsAll.dropWhile (fun c => c = '0')).reverse.dropWhile (fun c => c = '0')).reverse
  let ecmaN : ℤ := ((natDigits ip).length : ℤ) - ((digitsAll.takeWhile (fun c => c = '0')).length : ℤ)
  if m = 0 then "0"
  else if 21 < ecmaN ∨ ecmaN ≤ -6 then
    match sig with
    | [] => "0"
    | c :: rest =>
      sign ++ ⟨[c]⟩ ++ (if rest = [] then "" else "." ++ ⟨rest⟩) ++ "e" ++
        (if 0 ≤ ecmaN - 1 then "+" else "-") ++ ⟨natDigits (ecmaN - 1).natAbs⟩
  else if fp = 0 then sign ++ ⟨natDigits ip⟩
  else sign ++ ⟨natDigits ip⟩ ++ "." ++ ⟨(padLeftZeros (natDigits fp) k)⟩

def JSNum.toStr : JSNum → String
  | .nan => "NaN"
  | .posInf => "Infinity"
  | .negInf => "-Infinity"
  | .fin q => qToString q

/-- JS `parseInt(s, 10)`: optional whitespace and sign, then a digit prefix. -/
def parseIntJS (s : String) : Option ℤ :=
  let l := s.toList.dropWhile jsIsWS
  let (sgn, l) : ℤ × List Char :=
    match l with
    | c :: rest => if c = '-' then (-1, rest) else if c = '+' then (1, rest) else (1, l)
    | [] => (1, [])
  let ds := l.takeWhile isDigitCh
  if ds = [] then none else some (sgn * natOfDigits ds)

/-- JS `parseFloat`: optional whitespace and sign, then `Infinity` or a
decimal mantissa with an optional exponent; returns NaN when no numeric
prefix exists. -/
def parseFloatJS (s : String) : JSNum :=
  let l := s.toList.dropWhile jsIsWS
  let (sgn, l) : ℚ × List Char :=
    match l with
    | c :: rest => if c = '-' then (-1, rest) else if c = '+' then (1, rest) else (1, l)
    | [] => (1, [])
  if listPrefixOf "Infinity".toList l then
    if sgn < 0 then .negInf else .posInf
  else
    let ip := l.takeWhile isDigitCh
    let l1 := l.drop ip.length
    let (fp, l2) : List Char × List Char :=
      match l1 with
      | c :: rest => if c = '.' then (rest.takeWhile isDigitCh, rest.drop ((rest.takeWhile isDigitCh).length)) else ([], l1)
      | [] => ([], l1)
    if ip = [] ∧ fp = [] then .nan
    else
      let mant : ℚ := (natOfDigits ip : ℚ) + (natOfDigits fp : ℚ) / 10 ^ fp.length
      let ex : ℤ :=
        match l2 with
        | c :: rest =>
          if c = 'e' ∨ c = 'E' then
            let (es, rest2) : ℤ × List Char :=
              match rest with
              | d :: r2 => if d = '-' then (-1, r2) else if d = '+' then (1, r2) else (1, rest)
              | [] => (1, rest)
            let eds := rest2.takeWhile isDigitCh
            if eds = [] then 0 else es * natOfDigits eds
          else 0
        | [] => 0
      .fin (sgn * mant * (10 : ℚ) ^ ex)

/-- Keep only the characters matched by `[0-9.-]` (the `formatNumberWithComma`
string-input strip). -/
def stripToNumChars (s : String) : String :=
  ⟨s.toList.filter (fun c => isDigitCh c || c = '.' || c = '-')⟩

/-- Keep only digits (`replace(/[^0-9]/g, '')`). -/
def stripToDigits (s : String) : String := ⟨s.toList.filter isDigitCh⟩

/-- Remove `$` and `,` (`replace(/[$,]/g, '')`). -/
def stripDollarComma (s : String) : String :=
  ⟨s.toList.filter (fun c => !(c = '$' || c = ','))⟩

/-- Remove `,` only (`replace(/,/g, '')`). -/
def stripCommas (s : String) : String :=
  ⟨s.toList.filter (fun c => !(c = ','))⟩

/-! ## Thousands grouping (`toLocaleString('en-US')`) -/

/-- Split a reversed digit list into groups of three. -/
def chunks3 : List Char → List (List Char)
  | [] => []
  | [a] => [[a]]
  | [a, b] => [[a, b]]
  | a :: b :: c :: rest => [a, b, c] :: chunks3 rest

/-- Insert `,` separators every three digits from the right. -/
def groupDigits (l : List Char) : List Char :=
  List.intercalate [','] ((chunks3 l.reverse).map List.reverse).reverse

/-- `en-US` rendering of a terminating rational with its exact fraction
digits (no minimum/maximum constraint): grouping applied to the integer
part of its decimal string. -/
def localeGroup (q : ℚ) : String :=
  match splitOnCh '.' (qToString q).toList with
  | [ip] => ⟨groupNeg ip⟩
  | ip :: fp :: _ => ⟨groupNeg ip⟩ ++ "." ++ ⟨fp⟩
  | [] => ""
where groupNeg (ip : List Char) : List Char :=
  match ip with
  | c :: rest => if c = '-' then '-' :: groupDigits rest else groupDigits ip
  | [] => ip

/-- `toLocaleString('en-US')` with default options (at most three fraction
digits, half-expand rounding). -/
def jsToLocaleDefault (n : JSNum) : String :=
  match n with
  | .nan => "NaN"
  | .posInf => "∞"
  | .negInf => "-∞"
  | .fin q =>
    let r : ℚ := (Int.floor (|q| * 1000 + 1/2) : ℤ) / 1000
    localeGroup (if q < 0 then -r else r)

/-- `toLocaleString('en-US', {minimumFractionDigits: d, maximumFractionDigits: d})`
(half-expand rounding to `d` fraction digits, then grouping). -/
def jsToLocaleFixed : JSNum → ℕ → String
  | .nan, _ => "NaN"
  | .posInf, _ => "∞"
  | .negInf, _ => "-∞"
  | .fin q, d =>
    if d = 0 then
      (if q < 0 then "-" else "") ++
        ⟨groupDigits (natDigits ((Int.floor (|q| * 10 ^ d + 1/2)).toNat / 10 ^ d))⟩
    else
      (if q < 0 then "-" else "") ++
        ⟨groupDigits (natDigits ((Int.floor (|q| * 10 ^ d + 1/2)).toNat / 10 ^ d))⟩ ++
        "." ++ ⟨padLeftZeros (natDigits ((Int.floor (|q| * 10 ^ d + 1/2)).toNat % 10 ^ d)) d⟩

/-- Number of characters after the `.` in a decimal string (0 when there is
no dot), as computed by `formatNumberWithComma` from `toString`. -/
def decimalPlacesOf (s : String) : ℕ :=
  match splitOnCh '.' s.toList with
  | _ :: fp :: _ => fp.length
  | _ => 0

/-- Either argument shape of the `number | string` formatter inputs. -/
inductive NumOrStr where
  | num (n : JSNum)
  | str (s : String)
deriving DecidableEq

/-- `formatNumberWithComma` (the decimal-place-preserving version of
`lib/document-generator.ts`). -/
def formatNumberWithComma (input : NumOrStr) : String :=
  let n : JSNum :=
    match input with
    | .str v => parseFloatJS (stripToNumChars v)
    | .num v => v
  if n.isNaN then "0"
  else
    let numStr := n.toStr
    let decimalPlaces := decimalPlacesOf numStr
    if decimalPlaces ≤ 2 then jsToLocaleDefault n
    else jsToLocaleFixed n decimalPlaces

/-! ## Data model (`SurveyResponse`, `VariableMapping`, templates and rules).
Union string literal types of the TS source are modelled as `String`
(the data arrives via `JSON.parse` at runtime); optional fields as `Option`. -/

/-- A survey answer value: a scalar string, a string list (multi-select) or
a repeated-group record list. -/
inductive JSValue where
  | str (s : String)
  | strList (l : List String)
  | recList (l : List (List (String × String)))
deriving DecidableEq

structure SurveyResponse where
  questionId : String
  value : JSValue
  price : Option ℚ := none
deriving DecidableEq

structure VariableMapping where
  id : Option String := none
  variableName : String
  questionId : String
  dataType : String
  transformRule : String
  required : Bool
  defaultValue : Option String := none
  formula : Option String := none
deriving DecidableEq

structure TransformOptions where
  documentNumber : Option String := none
  locale : Option String := none
  timezone : Option String := none
deriving DecidableEq

structure RuleCondition where
  questionId : String
  operator : String
  value : String
  valueType : Option String := none
  valueQuestionId : Option String := none
  sourceType : Option String := none
deriving DecidableEq

structure SelectionRule where
  id : Option String := none
  conditions : List RuleCondition
  logicalOperator : Option String := none
  priority : ℚ
  isAlwaysInclude : Bool
  isManualOnly : Bool
deriving DecidableEq

structure Template where
  id : String
  name : String
  displayName : String
  category : String
  rules : Option (List SelectionRule) := none
  -- source field `variables` (a Lean keyword)
  vars : Option (List VariableMapping) := none
  isActive : Bool
deriving DecidableEq

structure TemplateSelection where
  required : List Template
  suggested : List Template
  optional : List Template
deriving DecidableEq

structure RuleEvaluationResult where
  templateId : String
  score : ℚ
  matchedRules : ℕ
  totalRules : ℕ
  isAlwaysInclude : Bool
  isManualOnly : Bool
deriving DecidableEq

/-- A computed-variable value (`Record<string, string | number>`). -/
inductive CompVal where
  | s (v : String)
  | n (v : JSNum)
deriving DecidableEq

/-- The left-hand value resolved by `evaluateCondition`. -/
inductive ActualVal where
  | ofResp (v : JSValue)
  | ofComp (v : CompVal)
deriving DecidableEq

/-- JS string conversion of the resolved left-hand value
(`Array.isArray(v) ? v.join(',') : String(v)`). -/
def actualValStr : ActualVal → String
  | .ofResp (.str s) => s
  | .ofResp (.strList l) => String.intercalate "," l
  | .ofResp (.recList l) => String.intercalate "," (l.map fun _ => "[object Object]")
  | .ofComp (.s v) => v
  | .ofComp (.n v) => v.toStr

/-- JS string conversion of a referenced answer value. -/
def respValStr : JSValue → String
  | .str s => s
  | .strList l => String.intercalate "," l
  | .recList l => String.intercalate "," (l.map fun _ => "[object Object]")

/-! ## `evaluateCondition` -/

/-- Left-hand resolution of `evaluateCondition`: a computed variable when
`sourceType === 'computed'` and a computed map was passed, otherwise the
matching survey answer. -/
def resolveActual (condition : RuleCondition) (responses : List SurveyResponse)
    (computedVariables : Option (List (String × CompVal))) : Option ActualVal :=
  if condition.sourceType = some "computed" ∧ computedVariables.isSome then
    ((computedVariables.getD []).lookup condition.questionId).map ActualVal.ofComp
  else
    (responses.find? (fun r => r.questionId = condition.questionId)).map
      (fun r => ActualVal.ofResp r.value)

/-- Right-hand resolution: another question's answer when
`valueType === 'question'` with a non-empty `valueQuestionId`, else the
literal `condition.value`; `none` when the referenced question is unanswered. -/
def resolveConditionValue (condition : RuleCondition)
    (responses : List SurveyResponse) : Option String :=
  if condition.valueType = some "question" ∧ condition.valueQuestionId.getD "" ≠ "" then
    (responses.find? (fun r => r.questionId = condition.valueQuestionId.getD "")).map
      (fun r => respValStr r.value)
  else some condition.value

/-- `evaluateCondition` of `lib/document-generator.ts`. -/
def evaluateCondition (condition : RuleCondition) (responses : List SurveyResponse)
    (computedVariables : Option (List (String × CompVal))) : Bool :=
  match resolveActual condition responses computedVariables with
  | none => condition.operator = "!="
  | some actual =>
    let valueStr := actualValStr actual
    match resolveConditionValue condition responses with
    | none => condition.operator = "!="
    | some conditionValue =>
      if condition.operator = "==" then
        let numValue := parseFloatJS valueStr
        let numCondition := parseFloatJS conditionValue
        if !numValue.isNaN && !numCondition.isNaN then numValue = numCondition
        else jsToLower valueStr = jsToLower conditionValue
      else if condition.operator = "!=" then
        let numValue := parseFloatJS valueStr
        let numCondition := parseFloatJS conditionValue
        if !numValue.isNaN && !numCondition.isNaN then numValue ≠ numCondition
        else jsToLower valueStr ≠ jsToLower conditionValue
      else if condition.operator = "contains" then
        jsIncludes (jsToLower valueStr) (jsToLower conditionValue)
      else if condition.operator = "not_contains" then
        !jsIncludes (jsToLower valueStr) (jsToLower conditionValue)
      else if condition.operator = "in" then
        let allowedValues := (splitOnCh ',' conditionValue.toList).map
          (fun v => jsToLower (jsTrim ⟨v⟩))
        allowedValues.contains (jsToLower valueStr)
      else if condition.operator = ">" then
        let a := parseFloatJS valueStr
        let b := parseFloatJS conditionValue
        !a.isNaN && !b.isNaN && JSNum.ltb b a
      else if condition.operator = ">=" then
        let a := parseFloatJS valueStr
        let b := parseFloatJS conditionValue
        !a.isNaN && !b.isNaN && JSNum.leb b a
      else if condition.operator = "<" then
        let a := parseFloatJS valueStr
        let b := parseFloatJS conditionValue
        !a.isNaN && !b.isNaN && JSNum.ltb a b
      else if condition.operator = "<=" then
        let a := parseFloatJS valueStr
        let b := parseFloatJS conditionValue
        !a.isNaN && !b.isNaN && JSNum.leb a b
      else false

/-! ## `evaluateRules` and `selectTemplates` -/

/-- All conditions of a rule hold (AND) or some condition holds (OR), per the
rule's `logicalOperator` (AND is the default). -/
def ruleConditionsMet (rule : SelectionRule) (responses : List SurveyResponse)
    (computedVariables : Option (List (String × CompVal))) : Bool :=
  if rule.logicalOperator = some "OR" then
    rule.conditions.any (fun c => evaluateCondition c responses computedVariables)
  else
    rule.conditions.all (fun c => evaluateCondition c responses computedVariables)

/-- `evaluateRules` of `lib/document-generator.ts`; the score is an exact
rational (`matchedRules / totalRules` suffers no double rounding at the
comparison thresholds used by `selectTemplates`). -/
def evaluateRules (template : Template) (responses : List SurveyResponse)
    (computedVariables : Option (List (String × CompVal))) : RuleEvaluationResult :=
  let rules := template.rules.getD []
  if rules = [] then
    ⟨template.id, 0, 0, 0, false, false⟩
  else if rules.any (fun r => r.isAlwaysInclude) then
    ⟨template.id, 1, rules.length, rules.length, true, false⟩
  else if rules.any (fun r => r.isManualOnly) then
    ⟨template.id, 0, 0, rules.length, false, true⟩
  else
    let sortedRules := List.insertionSort (fun a b => a.priority ≤ b.priority) rules
    let matchedRules := sortedRules.countP
      (fun r => !r.conditions.isEmpty && ruleConditionsMet r responses computedVariables)
    let totalRules := (rules.filter (fun r => !r.conditions.isEmpty)).length
    let score : ℚ := if 0 < totalRules then (matchedRules : ℚ) / totalRules else 0
    ⟨template.id, score, matchedRules, totalRules, false, false⟩

inductive Bucket where
  | required
  | suggested
  | optional
deriving DecidableEq

/-- The per-template classification branch of `selectTemplates`. -/
def classifyTemplate (responses : List SurveyResponse)
    (computedVariables : Option (List (String × CompVal))) (template : Template) : Bucket :=
  let evaluation := evaluateRules template responses computedVariables
  if evaluation.isAlwaysInclude then .required
  else if evaluation.isManualOnly then .optional
  else if evaluation.totalRules = 0 then .optional
  else if 1 ≤ evaluation.score then .required
  else if 1/2 < evaluation.score then .suggested
  else .optional

/-- The classification loop of `selectTemplates`: templates are appended to
their bucket in input order. -/
def partitionTemplates (responses : List SurveyResponse)
    (computedVariables : Option (List (String × CompVal))) :
    List Template → List Template × List Template × List Template
  | [] => ([], [], [])
  | t :: ts =>
    let rest := partitionTemplates responses computedVariables ts
    match classifyTemplate responses computedVariables t with
    | .required => (t :: rest.1, rest.2.1, rest.2.2)
    | .suggested => (rest.1, t :: rest.2.1, rest.2.2)
    | .optional => (rest.1, rest.2.1, t :: rest.2.2)

/-- Display name used for the bucket sort (`a.displayName || a.name`). -/
def dispName (t : Template) : String :=
  if t.displayName = "" then t.name else t.displayName

/-- `selectTemplates` of `lib/document-generator.ts`.  The host collator
(`String.prototype.localeCompare`) is an explicit parameter `lc`; each
bucket is the stable sort of the classification order by
`lc (dispName a) (dispName b) ≤ 0`, which is what `Array.prototype.sort`
produces for a consistent comparator. -/
def selectTemplates (responses : List SurveyResponse) (templates : List Template)
    (computedVariables : Option (List (String × CompVal)))
    (lc : String → String → ℤ) : TemplateSelection :=
  let activeTemplates := templates.filter (fun t => t.isActive)
  let buckets := partitionTemplates responses computedVariables activeTemplates
  let r := fun a b => lc (dispName a) (dispName b) ≤ 0
  ⟨List.insertionSort r buckets.1, List.insertionSort r buckets.2.1,
    List.insertionSort r buckets.2.2⟩

/-! ## `validateVariables` -/

structure ValidationResult where
  isValid : Bool
  missingVariables : List String
  emptyRequired : List String
deriving DecidableEq

/-- One loop iteration of `validateVariables`: an absent key is pushed to
`missingVariables`, a present-but-blank value of a required mapping to
`emptyRequired`. -/
def validateStep (vars : List (String × String)) (acc : List String × List String)
    (mapping : VariableMapping) : List String × List String :=
  match vars.lookup mapping.variableName with
  | none => (acc.1 ++ [mapping.variableName], acc.2)
  | some value =>
    if mapping.required = true ∧ jsTrim value = "" then
      (acc.1, acc.2 ++ [mapping.variableName])
    else acc

/-- `validateVariables` of `lib/document-generator.ts` (identical in both
copies of the module); `vars` is the resolved string map. -/
def validateVariables (vars : List (String × String))
    (mappings : List VariableMapping) : ValidationResult :=
  let lists := mappings.foldl (validateStep vars) ([], [])
  ⟨lists.1.isEmpty && lists.2.isEmpty, lists.1, lists.2⟩

/-! ## Classification helper counts and lemmas -/

/-- Number of condition-bearing rules of a template. -/
def conditionRulesCount (t : Template) : ℕ :=
  ((t.rules.getD []).filter (fun r => !r.conditions.isEmpty)).length

/-- Number of condition-bearing rules whose conditions are met. -/
def matchedRulesCount (t : Template) (responses : List SurveyResponse)
    (computedVariables : Option (List (String × CompVal))) : ℕ :=
  (t.rules.getD []).countP
    (fun r => !r.conditions.isEmpty && ruleConditionsMet r responses computedVariables)

lemma evaluateRules_of_no_flags (t : Template) (rs : List SurveyResponse)
    (cv : Option (List (String × CompVal)))
    (hA : ∀ r ∈ t.rules.getD [], r.isAlwaysInclude = false)
    (hM : ∀ r ∈ t.rules.getD [], r.isManualOnly = false) :
    evaluateRules t rs cv =
      ⟨t.id,
        if 0 < conditionRulesCount t then
          (matchedRulesCount t rs cv : ℚ) / conditionRulesCount t else 0,
        matchedRulesCount t rs cv, conditionRulesCount t, false, false⟩ := by
  have hA' : (t.rules.getD []).any (fun r => r.isAlwaysInclude) = false := by
    simp only [List.any_eq_false]
    intro r h
    simp [hA r h]
  have hM' : (t.rules.getD []).any (fun r => r.isManualOnly) = false := by
    simp only [List.any_eq_false]
    intro r h
    simp [hM r h]
  have hcount : (List.insertionSort (fun a b => a.priority ≤ b.priority)
        (t.rules.getD [])).countP
        (fun r => !r.conditions.isEmpty && ruleConditionsMet r rs cv)
      = matchedRulesCount t rs cv :=
    (List.perm_insertionSort _ _).countP_eq _
  by_cases hr : t.rules.getD [] = []
  · simp [evaluateRules, hr, conditionRulesCount, matchedRulesCount]
  · simp [evaluateRules, hr, hA', hM', hcount, conditionRulesCount, matchedRulesCount]

lemma classify_of_no_flags (t : Template) (rs : List SurveyResponse)
    (cv : Option (List (String × CompVal)))
    (hA : ∀ r ∈ t.rules.getD [], r.isAlwaysInclude = false)
    (hM : ∀ r ∈ t.rules.getD [], r.isManualOnly = false) :
    classifyTemplate rs cv t =
      (if conditionRulesCount t = 0 then .optional
       else if 1 ≤ (matchedRulesCount t rs cv : ℚ) / conditionRulesCount t then .required
       else if 1/2 < (matchedRulesCount t rs cv : ℚ) / conditionRulesCount t then .suggested
       else .optional) := by
  rw [classifyTemplate, evaluateRules_of_no_flags t rs cv hA hM]
  by_cases h0 : conditionRulesCount t = 0
  · simp [h0]
  · simp [h0, Nat.pos_of_ne_zero h0]

lemma mem_partition (rs : List SurveyResponse)
    (cv : Option (List (String × CompVal))) (l : List Template) (t : Template) :
    (t ∈ (partitionTemplates rs cv l).1 ↔
      t ∈ l ∧ classifyTemplate rs cv t = .required) ∧
    (t ∈ (partitionTemplates rs cv l).2.1 ↔
      t ∈ l ∧ classifyTemplate rs cv t = .suggested) ∧
    (t ∈ (partitionTemplates rs cv l).2.2 ↔
      t ∈ l ∧ classifyTemplate rs cv t = .optional) := by
  induction l with
  | nil => simp [partitionTemplates]
  | cons a l ih =>
    obtain ⟨ih1, ih2, ih3⟩ := ih
    rcases hc : classifyTemplate rs cv a with _ | _ | _ <;>
      simp only [partitionTemplates, hc, List.mem_cons, ih1, ih2, ih3] <;>
      refine ⟨?_, ?_, ?_⟩ <;>
      constructor <;>
      intro h <;>
      aesop

lemma mem_selectTemplates (rs : List SurveyResponse) (ts : List Template)
    (cv : Option (List (String × CompVal))) (lc : String → String → ℤ) (t : Template) :
    (t ∈ (selectTemplates rs ts cv lc).required ↔
      t ∈ ts ∧ t.isActive = true ∧ classifyTemplate rs cv t = .required) ∧
    (t ∈ (selectTemplates rs ts cv lc).suggested ↔
      t ∈ ts ∧ t.isActive = true ∧ classifyTemplate rs cv t = .suggested) ∧
    (t ∈ (selectTemplates rs ts cv lc).optional ↔
      t ∈ ts ∧ t.isActive = true ∧ classifyTemplate rs cv t = .optional) := by
  have hp := mem_partition rs cv (ts.filter (fun t => t.isActive)) t
  simp only [selectTemplates]
  rw [List.Perm.mem_iff (List.perm_insertionSort _ _),
    List.Perm.mem_iff (List.perm_insertionSort _ _),
    List.Perm.mem_iff (List.perm_insertionSort _ _)] at *
  rw [hp.1, hp.2.1, hp.2.2]
  simp [List.mem_filter, and_assoc]

/-- **C1.** For an active template with neither `alwaysInclude` nor
`manualOnly` rules, `selectTemplates` classifies it into `required` iff its
score `m / n` over the `n` condition-bearing rules (of which `m` match) is
`≥ 1`, into `suggested` iff `0.5 < m / n < 1`, and into `optional`
otherwise — in particular `n = 2, m = 1` (score exactly `0.5`) and `n = 0`
both land in `optional`. -/
theorem selectTemplates_score_classification (rs : List SurveyResponse)
    (ts : List Template) (cv : Option (List (String × CompVal)))
    (lc : String → String → ℤ) (t : Template)
    (hmem : t ∈ ts) (hact : t.isActive = true)
    (hA : ∀ r ∈ t.rules.getD [], r.isAlwaysInclude = false)
    (hM : ∀ r ∈ t.rules.getD [], r.isManualOnly = false) :
    (t ∈ (selectTemplates rs ts cv lc).required ↔
      1 ≤ conditionRulesCount t ∧
        1 ≤ (matchedRulesCount t rs cv : ℚ) / conditionRulesCount t) ∧
    (t ∈ (selectTemplates rs ts cv lc).suggested ↔
      1 ≤ conditionRulesCount t ∧
        1/2 < (matchedRulesCount t rs cv : ℚ) / conditionRulesCount t ∧
        (matchedRulesCount t rs cv : ℚ) / conditionRulesCount t < 1) ∧
    (t ∈ (selectTemplates rs ts cv lc).optional ↔
      (conditionRulesCount t = 0 ∨
        (matchedRulesCount t rs cv : ℚ) / conditionRulesCount t ≤ 1/2)) := by
  have hms := mem_selectTemplates rs ts cv lc t
  have hcl := classify_of_no_flags t rs cv hA hM
  rw [hms.1, hms.2.1, hms.2.2]
  by_cases h0 : conditionRulesCount t = 0
  · have hcl2 : classifyTemplate rs cv t = .optional := by
      rw [hcl]
      simp [h0]
    refine ⟨iff_of_false ?_ ?_, iff_of_false ?_ ?_,
      iff_of_true ⟨hmem, hact, hcl2⟩ (Or.inl h0)⟩
    · rintro ⟨-, -, hx⟩
      rw [hcl2] at hx
      exact Bucket.noConfusion hx
    · rintro ⟨h1, -⟩
      omega
    · rintro ⟨-, -, hx⟩
      rw [hcl2] at hx
      exact Bucket.noConfusion hx
    · rintro ⟨h1, -⟩
      omega
  · have h1n : 1 ≤ conditionRulesCount t := Nat.one_le_iff_ne_zero.mpr h0
    set s : ℚ := (matchedRulesCount t rs cv : ℚ) / conditionRulesCount t with hs
    by_cases hge : 1 ≤ s
    · have hcl2 : classifyTemplate rs cv t = .required := by
        rw [hcl, if_neg h0, if_pos hge]
      refine ⟨iff_of_true ⟨hmem, hact, hcl2⟩ ⟨h1n, hge⟩,
        iff_of_false ?_ ?_, iff_of_false ?_ ?_⟩
      · rintro ⟨-, -, hx⟩
        rw [hcl2] at hx
        exact Bucket.noConfusion hx
      · rintro ⟨-, -, hlt⟩
        linarith
      · rintro ⟨-, -, hx⟩
        rw [hcl2] at hx
        exact Bucket.noConfusion hx
      · rintro (h | hle)
        · exact h0 h
        · linarith
    · push_neg at hge
      by_cases hsg : 1/2 < s
      · have hcl2 : classifyTemplate rs cv t = .suggested := by
          rw [hcl, if_neg h0, if_neg (not_le.mpr hge), if_pos hsg]
        refine ⟨iff_of_false ?_ ?_,
          iff_of_true ⟨hmem, hact, hcl2⟩ ⟨h1n, hsg, hge⟩, iff_of_false ?_ ?_⟩
        · rintro ⟨-, -, hx⟩
          rw [hcl2] at hx
          exact Bucket.noConfusion hx
        · rintro ⟨-, hge2⟩
          linarith
        · rintro ⟨-, -, hx⟩
          rw [hcl2] at hx
          exact Bucket.noConfusion hx
        · rintro (h | hle)
          · exact h0 h
          · linarith
      · push_neg at hsg
        have hcl2 : classifyTemplate rs cv t = .optional := by
          rw [hcl, if_neg h0, if_neg (not_le.mpr hge), if_neg (not_lt.mpr hsg)]
        refine ⟨iff_of_false ?_ ?_, iff_of_false ?_ ?_,
          iff_of_true ⟨hmem, hact, hcl2⟩ (Or.inr hsg)⟩
        · rintro ⟨-, -, hx⟩
          rw [hcl2] at hx
          exact Bucket.noConfusion hx
        · rintro ⟨-, hge2⟩
          linarith
        · rintro ⟨-, -, hx⟩
          rw [hcl2] at hx
          exact Bucket.noConfusion hx
        · rintro ⟨-, hsg2, -⟩
          linarith

/-- **C2.** A template with at least one rule flagged `alwaysInclude` gets
score 1.0 and `isAlwaysInclude = true` from `evaluateRules` for every set of
responses and computed variables (independently of all conditions and of any
`manualOnly` rules), and an active such template is always placed in the
`required` bucket by `selectTemplates`. -/
theorem evaluateRules_alwaysInclude (rs : List SurveyResponse) (ts : List Template)
    (cv : Option (List (String × CompVal))) (lc : String → String → ℤ) (t : Template)
    (hmem : t ∈ ts) (hact : t.isActive = true)
    (hA : ∃ r ∈ t.rules.getD [], r.isAlwaysInclude = true) :
    evaluateRules t rs cv =
      ⟨t.id, 1, (t.rules.getD []).length, (t.rules.getD []).length, true, false⟩ ∧
    t ∈ (selectTemplates rs ts cv lc).required := by
  obtain ⟨r, hr, hflag⟩ := hA
  have hne : t.rules.getD [] ≠ [] := by
    intro h
    rw [h] at hr
    exact absurd hr (List.not_mem_nil r)
  have hany : (t.rules.getD []).any (fun r => r.isAlwaysInclude) = true :=
    List.any_eq_true.mpr ⟨r, hr, hflag⟩
  have hev : evaluateRules t rs cv =
      ⟨t.id, 1, (t.rules.getD []).length, (t.rules.getD []).length, true, false⟩ := by
    simp [evaluateRules, hne, hany]
  refine ⟨hev, ?_⟩
  rw [(mem_selectTemplates rs ts cv lc t).1]
  refine ⟨hmem, hact, ?_⟩
  simp [classifyTemplate, hev]

/-! ## Concrete sample data for the selector theorems -/

def condNeverEq : RuleCondition :=
  { questionId := "q1", operator := "==", value := "x" }

def condVacNe : RuleCondition :=
  { questionId := "q1", operator := "!=", value := "x" }

def ruleMatch1 : SelectionRule :=
  { conditions := [condVacNe], priority := 1, isAlwaysInclude := false, isManualOnly := false }

def ruleMatch0 : SelectionRule :=
  { conditions := [condNeverEq], priority := 2, isAlwaysInclude := false, isManualOnly := false }

def ruleAlways : SelectionRule :=
  { conditions := [], priority := 1, isAlwaysInclude := true, isManualOnly := false }

def ruleManual : SelectionRule :=
  { conditions := [], priority := 2, isAlwaysInclude := false, isManualOnly := true }

def tplHalf : Template :=
  { id := "t1", name := "T1", displayName := "Half", category := "c",
    rules := some [ruleMatch1, ruleMatch0], isActive := true }

def tplAlways : Template :=
  { id := "t2", name := "T2", displayName := "Always", category := "c",
    rules := some [ruleAlways, ruleManual], isActive := true }

def lcTrivial : String → String → ℤ := fun _ _ => 0

/-- Witness for the score-classification theorem: a template with two
condition-bearing rules of which exactly one matches (score `0.5`) lands in
`optional`. -/
theorem selectTemplates_score_classification_witness :
    tplHalf ∈ (selectTemplates [] [tplHalf] none lcTrivial).optional :=
  (selectTemplates_score_classification [] [tplHalf] none lcTrivial tplHalf
    (by decide) rfl (by decide) (by decide)).2.2.mpr (Or.inr (by
      have h1 : matchedRulesCount tplHalf [] none = 1 := by decide
      have h2 : conditionRulesCount tplHalf = 2 := by decide
      rw [h1, h2]
      norm_num))

/-- Witness for the alwaysInclude theorem, exercised on a template that also
carries a `manualOnly` rule. -/
theorem evaluateRules_alwaysInclude_witness :
    evaluateRules tplAlways [] none = ⟨"t2", 1, 2, 2, true, false⟩ ∧
    tplAlways ∈ (selectTemplates [] [tplAlways] none lcTrivial).required :=
  evaluateRules_alwaysInclude [] [tplAlways] none lcTrivial tplAlways
    (by decide) rfl ⟨ruleAlways, by decide, rfl⟩

lemma partition_append_perm (rs : List SurveyResponse)
    (cv : Option (List (String × CompVal))) (l : List Template) :
    ((partitionTemplates rs cv l).1 ++ (partitionTemplates rs cv l).2.1 ++
      (partitionTemplates rs cv l).2.2).Perm l := by
  induction l with
  | nil => simp [partitionTemplates]
  | cons a l ih =>
    rcases hc : classifyTemplate rs cv a with _ | _ | _ <;>
      simp only [partitionTemplates, hc]
    · exact ih.cons a
    · rw [List.append_assoc]
      refine List.Perm.trans List.perm_middle ?_
      have h2 := ih.cons a
      rwa [List.append_assoc] at h2
    · exact List.Perm.trans List.perm_middle (ih.cons a)

/-- **C10.** `selectTemplates` partitions the active templates: the three
buckets together are a permutation of the active-template sublist, inactive
templates appear in no bucket, no template is in two buckets, and each
bucket is sorted by display name under the injected `localeCompare`
comparator (assumed transitive and total). -/
theorem selectTemplates_buckets_partition (rs : List SurveyResponse)
    (ts : List Template) (cv : Option (List (String × CompVal)))
    (lc : String → String → ℤ)
    (htrans : ∀ a b c : String, lc a b ≤ 0 → lc b c ≤ 0 → lc a c ≤ 0)
    (htot : ∀ a b : String, lc a b ≤ 0 ∨ lc b a ≤ 0) :
    ((selectTemplates rs ts cv lc).required ++ (selectTemplates rs ts cv lc).suggested ++
      (selectTemplates rs ts cv lc).optional).Perm (ts.filter (fun t => t.isActive)) ∧
    (∀ t : Template, t.isActive = false →
      t ∉ (selectTemplates rs ts cv lc).required ∧
      t ∉ (selectTemplates rs ts cv lc).suggested ∧
      t ∉ (selectTemplates rs ts cv lc).optional) ∧
    (∀ t : Template,
      ¬(t ∈ (selectTemplates rs ts cv lc).required ∧
        t ∈ (selectTemplates rs ts cv lc).suggested) ∧
      ¬(t ∈ (selectTemplates rs ts cv lc).required ∧
        t ∈ (selectTemplates rs ts cv lc).optional) ∧
      ¬(t ∈ (selectTemplates rs ts cv lc).suggested ∧
        t ∈ (selectTemplates rs ts cv lc).optional)) ∧
    ((selectTemplates rs ts cv lc).required.Sorted
        (fun a b => lc (dispName a) (dispName b) ≤ 0) ∧
      (selectTemplates rs ts cv lc).suggested.Sorted
        (fun a b => lc (dispName a) (dispName b) ≤ 0) ∧
      (selectTemplates rs ts cv lc).optional.Sorted
        (fun a b => lc (dispName a) (dispName b) ≤ 0)) := by
  haveI : IsTrans Template (fun a b => lc (dispName a) (dispName b) ≤ 0) :=
    ⟨fun a b c hab hbc => htrans _ _ _ hab hbc⟩
  haveI : IsTotal Template (fun a b => lc (dispName a) (dispName b) ≤ 0) :=
    ⟨fun a b => htot _ _⟩
  refine ⟨?_, ?_, ?_, ?_, ?_, ?_⟩
  · refine List.Perm.trans ?_ (partition_append_perm rs cv (ts.filter (fun t => t.isActive)))
    simp only [selectTemplates]
    exact ((List.perm_insertionSort _ _).append (List.perm_insertionSort _ _)).append
      (List.perm_insertionSort _ _)
  · intro t hf
    have hms := mem_selectTemplates rs ts cv lc t
    refine ⟨?_, ?_, ?_⟩
    · rw [hms.1]
      rintro ⟨-, ha, -⟩
      rw [hf] at ha
      exact Bool.noConfusion ha
    · rw [hms.2.1]
      rintro ⟨-, ha, -⟩
      rw [hf] at ha
      exact Bool.noConfusion ha
    · rw [hms.2.2]
      rintro ⟨-, ha, -⟩
      rw [hf] at ha
      exact Bool.noConfusion ha
  · intro t
    have hms := mem_selectTemplates rs ts cv lc t
    refine ⟨?_, ?_, ?_⟩
    · rintro ⟨h1, h2⟩
      rw [hms.1] at h1
      rw [hms.2.1] at h2
      rw [h1.2.2] at h2
      exact Bucket.noConfusion h2.2.2
    · rintro ⟨h1, h2⟩
      rw [hms.1] at h1
      rw [hms.2.2] at h2
      rw [h1.2.2] at h2
      exact Bucket.noConfusion h2.2.2
    · rintro ⟨h1, h2⟩
      rw [hms.2.1] at h1
      rw [hms.2.2] at h2
      rw [h1.2.2] at h2
      exact Bucket.noConfusion h2.2.2
  · exact List.sorted_insertionSort _ _
  · exact List.sorted_insertionSort _ _
  · exact List.sorted_insertionSort _ _

/-- Witness for the partition theorem at a concrete input (the trivial
comparator is transitive and total). -/
theorem selectTemplates_buckets_partition_witness :
    ((selectTemplates [] [tplHalf] none lcTrivial).required ++
      (selectTemplates [] [tplHalf] none lcTrivial).suggested ++
      (selectTemplates [] [tplHalf] none lcTrivial).optional).Perm
      ([tplHalf].filter (fun t => t.isActive)) :=
  (selectTemplates_buckets_partition [] [tplHalf] none lcTrivial
    (fun _ _ _ _ _ => le_refl (0 : ℤ)) (fun _ _ => Or.inl (le_refl (0 : ℤ)))).1

/-! ## C5: condition evaluation on missing and non-numeric values -/

/-- **C5.** A condition whose left-hand value is absent (no matching survey
answer and no matching computed variable) evaluates to `true` exactly for the
`!=` operator; and each ordering operator evaluates to `false` whenever
either side fails to parse as a number (including an absent side). -/
theorem evaluateCondition_missing_and_nonnumeric (condition : RuleCondition)
    (responses : List SurveyResponse)
    (computedVariables : Option (List (String × CompVal))) :
    ((∀ r ∈ responses, r.questionId ≠ condition.questionId) →
      (∀ m, computedVariables = some m → m.lookup condition.questionId = none) →
      (evaluateCondition condition responses computedVariables = true ↔
        condition.operator = "!=")) ∧
    ((condition.operator = ">" ∨ condition.operator = ">=" ∨
        condition.operator = "<" ∨ condition.operator = "<=") →
      ((∀ a, resolveActual condition responses computedVariables = some a →
          (parseFloatJS (actualValStr a)).isNaN = true) ∨
        (∀ v, resolveConditionValue condition responses = some v →
          (parseFloatJS v).isNaN = true)) →
      evaluateCondition condition responses computedVariables = false) := by
  have hfindTail : (∀ r ∈ responses, r.questionId ≠ condition.questionId) →
      responses.find? (fun r => r.questionId = condition.questionId) = none := by
    intro h1
    rw [List.find?_eq_none]
    intro r hr
    simpa using h1 r hr
  constructor
  · intro h1 h2
    have hra : resolveActual condition responses computedVariables = none := by
      unfold resolveActual
      by_cases hcond : condition.sourceType = some "computed" ∧ computedVariables.isSome
      · rw [if_pos hcond]
        rcases computedVariables with _ | m
        · simp at hcond
        · simp [h2 m rfl]
      · rw [if_neg hcond]
        simp [hfindTail h1]
    simp [evaluateCondition, hra]
  · intro hop hfail
    cases hra : resolveActual condition responses computedVariables with
    | none =>
      rcases hop with hop | hop | hop | hop <;> simp [evaluateCondition, hra, hop]
    | some a =>
      cases hrc : resolveConditionValue condition responses with
      | none =>
        rcases hop with hop | hop | hop | hop <;> simp [evaluateCondition, hra, hrc, hop]
      | some v =>
        rcases hfail with hf | hf
        · have hna := hf a hra
          rcases hop with hop | hop | hop | hop <;>
            simp [evaluateCondition, hra, hrc, hop, hna]
        · have hnv := hf v hrc
          rcases hop with hop | hop | hop | hop <;>
            simp [evaluateCondition, hra, hrc, hop, hnv]

def condGtBad : RuleCondition :=
  { questionId := "q1", operator := ">", value := "abc" }

/-- Witness for the condition-evaluation theorem: a missing left-hand value
makes `!=` true, and `>` against a non-numeric literal is false. -/
theorem evaluateCondition_missing_and_nonnumeric_witness :
    evaluateCondition condVacNe [] none = true ∧
    evaluateCondition condGtBad [⟨"q1", .str "5", none⟩] none = false :=
  ⟨((evaluateCondition_missing_and_nonnumeric condVacNe [] none).1
      (by intro r hr; cases hr) (by intro m hm; cases hm)).mpr rfl,
    (evaluateCondition_missing_and_nonnumeric condGtBad
        [⟨"q1", .str "5", none⟩] none).2 (Or.inl rfl)
      (Or.inr (fun v hv => by
        have hveq : v = "abc" := by
          simpa [resolveConditionValue, condGtBad] using hv.symm
        subst hveq
        decide))⟩

/-! ## C6: `validateVariables` characterization -/

/-- The mapping predicate under which `validateVariables` reports a missing
variable. -/
def isMissingP (vars : List (String × String)) (m : VariableMapping) : Bool :=
  (vars.lookup m.variableName).isNone

/-- The mapping predicate under which `validateVariables` reports a blank
required variable. -/
def isEmptyReqP (vars : List (String × String)) (m : VariableMapping) : Bool :=
  match vars.lookup m.variableName with
  | none => false
  | some v => decide (m.required = true ∧ jsTrim v = "")

lemma validate_foldl (vars : List (String × String)) (ms : List VariableMapping) :
    ∀ acc : List String × List String,
      ms.foldl (validateStep vars) acc =
        (acc.1 ++ (ms.filter (isMissingP vars)).map (fun m => m.variableName),
         acc.2 ++ (ms.filter (isEmptyReqP vars)).map (fun m => m.variableName)) := by
  induction ms with
  | nil =>
    intro acc
    simp
  | cons m ms ih =>
    intro acc
    rw [List.foldl_cons, ih]
    cases hl : vars.lookup m.variableName with
    | none =>
      simp [validateStep, hl, isMissingP, isEmptyReqP, List.filter_cons]
    | some v =>
      by_cases hreq : m.required = true ∧ jsTrim v = ""
      · simp [validateStep, hl, isMissingP, isEmptyReqP, List.filter_cons, hreq]
      · simp [validateStep, hl, isMissingP, isEmptyReqP, List.filter_cons, hreq]

lemma validateVariables_eq (vars : List (String × String))
    (ms : List VariableMapping) :
    validateVariables vars ms =
      ⟨((ms.filter (isMissingP vars)).map (fun m => m.variableName)).isEmpty &&
        ((ms.filter (isEmptyReqP vars)).map (fun m => m.variableName)).isEmpty,
       (ms.filter (isMissingP vars)).map (fun m => m.variableName),
       (ms.filter (isEmptyReqP vars)).map (fun m => m.variableName)⟩ := by
  rw [validateVariables, validate_foldl vars ms ([], [])]
  simp

/-- **C6.** `validateVariables` reports a name in `missingVariables` exactly
when some mapping emits it and the key is absent from the resolved map; in
`emptyRequired` exactly when some required mapping emits it and the key is
present with an all-whitespace value; `isValid` holds exactly when both lists
are empty; and the two lists are disjoint. -/
theorem validateVariables_spec (vars : List (String × String))
    (mappings : List VariableMapping) (name : String) :
    (name ∈ (validateVariables vars mappings).missingVariables ↔
      (∃ m ∈ mappings, m.variableName = name) ∧ vars.lookup name = none) ∧
    (name ∈ (validateVariables vars mappings).emptyRequired ↔
      ∃ m ∈ mappings, m.variableName = name ∧ m.required = true ∧
        ∃ v, vars.lookup name = some v ∧ jsTrim v = "") ∧
    ((validateVariables vars mappings).isValid = true ↔
      (validateVariables vars mappings).missingVariables = [] ∧
      (validateVariables vars mappings).emptyRequired = []) ∧
    (name ∉ (validateVariables vars mappings).missingVariables ∨
      name ∉ (validateVariables vars mappings).emptyRequired) := by
  rw [validateVariables_eq]
  have hmiss : name ∈ (mappings.filter (isMissingP vars)).map (fun m => m.variableName) ↔
      (∃ m ∈ mappings, m.variableName = name) ∧ vars.lookup name = none := by
    simp only [List.mem_map, List.mem_filter, isMissingP, Option.isNone_iff_eq_none]
    constructor
    · rintro ⟨m, ⟨hm, hnone⟩, rfl⟩
      exact ⟨⟨m, hm, rfl⟩, hnone⟩
    · rintro ⟨⟨m, hm, rfl⟩, hnone⟩
      exact ⟨m, ⟨hm, hnone⟩, rfl⟩
  have hempty : name ∈ (mappings.filter (isEmptyReqP vars)).map (fun m => m.variableName) ↔
      ∃ m ∈ mappings, m.variableName = name ∧ m.required = true ∧
        ∃ v, vars.lookup name = some v ∧ jsTrim v = "" := by
    simp only [List.mem_map, List.mem_filter]
    constructor
    · rintro ⟨m, ⟨hm, hp⟩, rfl⟩
      refine ⟨m, hm, rfl, ?_⟩
      unfold isEmptyReqP at hp
      cases hl : vars.lookup m.variableName with
      | none =>
        rw [hl] at hp
        exact absurd hp (by simp)
      | some v =>
        rw [hl] at hp
        have := of_decide_eq_true hp
        exact ⟨this.1, v, rfl, this.2⟩
    · rintro ⟨m, hm, rfl, hreq, v, hl, htrim⟩
      refine ⟨m, ⟨hm, ?_⟩, rfl⟩
      unfold isEmptyReqP
      rw [hl]
      exact decide_eq_true ⟨hreq, htrim⟩
  refine ⟨hmiss, hempty, ?_, ?_⟩
  · simp [List.isEmpty_iff]
  · by_cases hn : vars.lookup name = none
    · right
      rw [hempty]
      rintro ⟨m, hm, rfl, hreq, v, hl, -⟩
      rw [hn] at hl
      exact Option.noConfusion hl
    · left
      rw [hmiss]
      rintro ⟨-, hnone⟩
      exact hn hnone

/-! ## C7: `formatNumberWithComma` grouping and decimal-place preservation -/

lemma digitChar_is_digit (m : ℕ) (h : m < 10) : isDigitCh (Nat.digitChar m) = true := by
  interval_cases m <;> decide

lemma isDigitCh_ne (c : Char) (h : isDigitCh c = true) : c ≠ '.' ∧ c ≠ ',' ∧ c ≠ '-' := by
  refine ⟨?_, ?_, ?_⟩ <;> intro hc <;> rw [hc] at h <;> exact absurd h (by decide)

lemma toDigitsCore_mem (fuel : ℕ) :
    ∀ (n : ℕ) (ds : List Char) (c : Char),
      c ∈ Nat.toDigitsCore 10 fuel n ds → c ∈ ds ∨ isDigitCh c = true := by
  induction fuel with
  | zero =>
    intro n ds c hc
    exact Or.inl hc
  | succ fuel ih =>
    intro n ds c hc
    rw [Nat.toDigitsCore] at hc
    by_cases hz : n / 10 = 0
    · rw [if_pos hz] at hc
      rcases List.mem_cons.mp hc with rfl | hc
      · exact Or.inr (digitChar_is_digit _ (Nat.mod_lt _ (by norm_num)))
      · exact Or.inl hc
    · rw [if_neg hz] at hc
      rcases ih (n / 10) _ c hc with hc | hc
      · rcases List.mem_cons.mp hc with rfl | hc
        · exact Or.inr (digitChar_is_digit _ (Nat.mod_lt _ (by norm_num)))
        · exact Or.inl hc
      · exact Or.inr hc

lemma toDigitsCore_length (fuel : ℕ) :
    ∀ (d n : ℕ) (ds : List Char), n < 10 ^ d → 1 ≤ d →
      (Nat.toDigitsCore 10 fuel n ds).length ≤ ds.length + d := by
  induction fuel with
  | zero =>
    intro d n ds hlt hd
    rw [Nat.toDigitsCore]
    omega
  | succ fuel ih =>
    intro d n ds hlt hd
    rw [Nat.toDigitsCore]
    by_cases hz : n / 10 = 0
    · rw [if_pos hz]
      simp only [List.length_cons]
      omega
    · rw [if_neg hz]
      have hd2 : 2 ≤ d := by
        by_contra hcon
        have : d = 1 := by omega
        subst this
        simp only [pow_one] at hlt
        omega
      have hlt2 : n / 10 < 10 ^ (d - 1) := by
        rw [Nat.div_lt_iff_lt_mul (by norm_num)]
        calc n < 10 ^ d := hlt
          _ = 10 ^ (d - 1) * 10 := by
            rw [← pow_succ]
            congr 1
            omega
      have := ih (d - 1) (n / 10) ((n % 10).digitChar :: ds) hlt2 (by omega)
      simp only [List.length_cons] at this
      omega

lemma natDigits_mem (n : ℕ) (c : Char) (hc : c ∈ natDigits n) : isDigitCh c = true := by
  rcases toDigitsCore_mem (n + 1) n [] c hc with h | h
  · exact absurd h (List.not_mem_nil c)
  · exact h

lemma natDigits_length (n d : ℕ) (hlt : n < 10 ^ d) (hd : 1 ≤ d) :
    (natDigits n).length ≤ d := by
  have := toDigitsCore_length (n + 1) d n [] hlt hd
  simpa using this

lemma chunks3_mem : ∀ (m : List Char), ∀ x ∈ chunks3 m, ∀ c ∈ x, c ∈ m
  | [] => by simp [chunks3]
  | [a] => by
    intro x hx c hc
    simp only [chunks3, List.mem_singleton] at hx
    subst hx
    exact hc
  | [a, b] => by
    intro x hx c hc
    simp only [chunks3, List.mem_singleton] at hx
    subst hx
    exact hc
  | a :: b :: d :: rest => by
    intro x hx c hc
    simp only [chunks3, List.mem_cons] at hx
    rcases hx with rfl | hx
    · simp only [List.mem_cons] at hc ⊢
      tauto
    · have := chunks3_mem rest x hx c hc
      simp only [List.mem_cons]
      tauto

lemma mem_intersperse {α : Type} (sep : α) :
    ∀ (l : List α) (x : α), x ∈ l.intersperse sep → x = sep ∨ x ∈ l
  | [] => by simp
  | [a] => by simp
  | a :: b :: l => by
    intro x hx
    simp only [List.intersperse] at hx
    rcases List.mem_cons.mp hx with rfl | hx
    · simp
    · rcases List.mem_cons.mp hx with rfl | hx
      · simp
      · rcases mem_intersperse sep (b :: l) x hx with h | h
        · exact Or.inl h
        · simp only [List.mem_cons] at h ⊢
          tauto

lemma groupDigits_mem (l : List Char) (c : Char) (hc : c ∈ groupDigits l) :
    c ∈ l ∨ c = ',' := by
  unfold groupDigits at hc
  rw [List.intercalate] at hc
  rcases List.mem_join.mp hc with ⟨x, hx, hcx⟩
  rcases mem_intersperse _ _ x hx with rfl | hx
  · right
    simpa using hcx
  · rw [List.mem_reverse] at hx
    rcases List.mem_map.mp hx with ⟨y, hy, rfl⟩
    have := chunks3_mem l.reverse y hy c (List.mem_reverse.mp hcx)
    left
    exact List.mem_reverse.mp this

lemma splitOnCh_nil (sep : Char) : splitOnCh sep [] = [[]] := rfl

lemma splitOnCh_cons (sep c : Char) (l : List Char) :
    splitOnCh sep (c :: l) =
      match splitOnCh sep l with
      | [] => if c = sep then [[], []] else [[c]]
      | cur :: rest => if c = sep then [] :: cur :: rest else (c :: cur) :: rest := rfl

lemma splitOnCh_ne_nil (sep : Char) : ∀ l : List Char, splitOnCh sep l ≠ [] := by
  intro l
  induction l with
  | nil => simp [splitOnCh_nil]
  | cons c l ih =>
    rw [splitOnCh_cons]
    rcases hs : splitOnCh sep l with _ | ⟨cur, rest⟩
    · by_cases hc : c = sep <;> simp [hc]
    · by_cases hc : c = sep <;> simp [hc]

lemma splitOnCh_no_sep (sep : Char) :
    ∀ l : List Char, (∀ c ∈ l, c ≠ sep) → splitOnCh sep l = [l] := by
  intro l
  induction l with
  | nil => simp [splitOnCh_nil]
  | cons c l ih =>
    intro h
    rw [splitOnCh_cons, ih (fun x hx => h x (List.mem_cons_of_mem c hx))]
    simp [h c (List.mem_cons_self c l)]

lemma splitOnCh_prepend (sep : Char) :
    ∀ (a l : List Char), (∀ c ∈ a, c ≠ sep) →
      splitOnCh sep (a ++ l) =
        (a ++ (splitOnCh sep l).headD []) :: (splitOnCh sep l).tail := by
  intro a
  induction a with
  | nil =>
    intro l _
    rcases hs : splitOnCh sep l with _ | ⟨cur, rest⟩
    · exact absurd hs (splitOnCh_ne_nil sep l)
    · simp [hs]
  | cons c a ih =>
    intro l h
    rw [List.cons_append, splitOnCh_cons, ih l (fun x hx => h x (List.mem_cons_of_mem c hx))]
    simp [h c (List.mem_cons_self c a)]

lemma splitOnCh_mid (sep : Char) (a b : List Char) (ha : ∀ c ∈ a, c ≠ sep)
    (hb : ∀ c ∈ b, c ≠ sep) : splitOnCh sep (a ++ sep :: b) = [a, b] := by
  rw [splitOnCh_prepend sep a (sep :: b) ha, splitOnCh_cons, splitOnCh_no_sep sep b hb]
  simp

lemma decimalPlacesOf_eq (s : String) (pre frac : List Char)
    (h : s.toList = pre ++ '.' :: frac) (hpre : ∀ c ∈ pre, c ≠ '.')
    (hfrac : ∀ c ∈ frac, c ≠ '.') : decimalPlacesOf s = frac.length := by
  unfold decimalPlacesOf
  rw [h, splitOnCh_mid _ _ _ hpre hfrac]

/-- C7 (amended): `formatNumberWithComma` of the document-generation engine
renders `10000000` as `"10,000,000"`, renders `0.0001` as `"0.0001"`, and
preserves the exact number of fraction digits of the value's `toString`
rendering whenever that rendering shows more than two after its decimal
point. The preservation is relative to the `toString` string, not to the
numeral the caller wrote: a value below `1e-6` renders in exponential
notation, so its written decimal places are not preserved (see the
counterexample, where 0.0000001 collapses to `"0"`). -/
theorem formatNumberWithComma_grouping_and_decimals :
    formatNumberWithComma (.num (.fin 10000000)) = "10,000,000" ∧
    formatNumberWithComma (.num (.fin (1/10000))) = "0.0001" ∧
    (∀ q : ℚ, 2 < decimalPlacesOf (qToString q) →
      decimalPlacesOf (formatNumberWithComma (.num (.fin q))) =
        decimalPlacesOf (qToString q)) := by
  refine ⟨by with_unfolding_all rfl, by with_unfolding_all rfl, ?_⟩
  intro q hq
  have hnotle : ¬ decimalPlacesOf (JSNum.toStr (.fin q)) ≤ 2 := by
    simp only [JSNum.toStr]
    omega
  have hmain : formatNumberWithComma (.num (.fin q)) =
      jsToLocaleFixed (.fin q) (decimalPlacesOf (qToString q)) := by
    unfold formatNumberWithComma
    rw [if_neg (by simp [JSNum.isNaN])]
    simp only [JSNum.toStr] at hnotle ⊢
    rw [if_neg hnotle]
  rw [hmain]
  set d := decimalPlacesOf (qToString q) with hd
  simp only [jsToLocaleFixed]
  rw [if_neg (by omega)]
  have hdig : (natDigits ((Int.floor (|q| * 10 ^ d + 1/2)).toNat % 10 ^ d)).length ≤ d :=
    natDigits_length _ d (Nat.mod_lt _ (Nat.pos_pow_of_pos d (by norm_num))) (by omega)
  have hfraclen :
      (padLeftZeros (natDigits ((Int.floor (|q| * 10 ^ d + 1/2)).toNat % 10 ^ d)) d).length = d := by
    simp only [padLeftZeros, List.length_append, List.length_replicate]
    omega
  refine (decimalPlacesOf_eq _
    ((if q < 0 then "-" else "").toList ++
      groupDigits (natDigits ((Int.floor (|q| * 10 ^ d + 1/2)).toNat / 10 ^ d)))
    (padLeftZeros (natDigits ((Int.floor (|q| * 10 ^ d + 1/2)).toNat % 10 ^ d)) d)
    ?_ ?_ ?_).trans hfraclen
  · show (_ ++ _ ++ "." ++ _ : String).data = _
    rw [String.data_append, String.data_append, String.data_append]
    simp [List.append_assoc, String.toList]
  · intro c hc
    rcases List.mem_append.mp hc with hc | hc
    · by_cases hneg : q < 0
      · rw [if_pos hneg] at hc
        rcases List.mem_singleton.mp hc with rfl
        decide
      · rw [if_neg hneg] at hc
        exact absurd hc (List.not_mem_nil c)
    · rcases groupDigits_mem _ c hc with hc | rfl
      · exact (isDigitCh_ne c (natDigits_mem _ c hc)).1
      · decide
  · intro c hc
    rcases List.mem_append.mp hc with hc | hc
    · rcases List.eq_of_mem_replicate hc with rfl
      decide
    · exact (isDigitCh_ne c (natDigits_mem _ c hc)).1

/-- Witness for the decimal-place-preservation part at `0.0001` (four
decimal places, more than two). -/
theorem formatNumberWithComma_grouping_and_decimals_witness :
    decimalPlacesOf (formatNumberWithComma (.num (.fin (1/10000)))) =
      decimalPlacesOf (qToString (1/10000)) :=
  formatNumberWithComma_grouping_and_decimals.2.2 (1/10000)
    (by with_unfolding_all decide)

/-- C7 counterexample: an input with seven decimal places is not preserved.
`(1e-7).toString()` is `"1e-7"` (ECMA-262 switches to exponential notation
below `1e-6`), so `formatNumberWithComma` computes 0 decimal places from
that string, takes the default locale branch and rounds the value away to
`"0"` — for the string input `"0.0000001"` and the number input alike. -/
theorem formatNumberWithComma_tiny_counterexample :
    formatNumberWithComma (.str "0.0000001") = "0" ∧
    formatNumberWithComma (.num (.fin (1/10000000))) = "0" ∧
    qToString (1/10000000) = "1e-7" := by
  refine ⟨?_, ?_, ?_⟩ <;> with_unfolding_all rfl

/-! ## Formula evaluator (`evaluateFormula` / `evaluateMathExpression`)

The JS evaluator rewrites strings with regexes inside a `while` loop; the
loop need not terminate (the parenthesis regex cannot match an empty or
unclosed group while `includes('(')` stays true), so the embedding is
fuel-indexed: `none` means the computation does not finish within the given
fuel, and a result that is `none` for every fuel is a true divergence. -/

def lbrace : Char := Char.ofNat 123

def rbrace : Char := Char.ofNat 125

/-- Values held by the transformer's result map (`Record<string, string>`
plus the array-typed entries stored for docxtemplater loops). -/
structure LoopEntry where
  value : String
  isFirst : Bool
  isLast : Bool
  index : ℕ
deriving DecidableEq

structure GroupEntry where
  fields : List (String × String)
  index : ℕ
  isFirst : Bool
  isLast : Bool
deriving DecidableEq

inductive Value where
  | str (s : String)
  | loopArr (items : List LoopEntry)
  | groupArr (items : List GroupEntry)
deriving DecidableEq

/-- All `{name}` tokens of the formula in scan order
(`/\JKLBRACE([^JKRBRACE]+)\JKRBRACE/g` with `JKLBRACE`/`JKRBRACE` the braces). -/
def findBraceVarsAux : ℕ → List Char → List String
  | 0, _ => []
  | _ + 1, [] => []
  | fuel + 1, c :: rest =>
    if c = lbrace then
      let body := rest.takeWhile (fun d => !(d = rbrace))
      match rest.drop body.length with
      | _ :: rest2 =>
        if body.isEmpty then findBraceVarsAux fuel rest
        else ⟨body⟩ :: findBraceVarsAux fuel rest2
      | [] => findBraceVarsAux fuel rest
    else findBraceVarsAux fuel rest

def findBraceVars (l : List Char) : List String := findBraceVarsAux l.length l

/-- Numeric value substituted for one variable reference: missing or empty
references become 0, non-numeric strings (after stripping `$` and `,`)
become 0; an array-valued variable makes `value.replace` throw a TypeError
(`none`), which the surrounding `try` of `evaluateFormula` turns into `''`. -/
def varNumValue : Option Value → Option JSNum
  | none => some (.fin 0)
  | some (.str v) =>
    if v = "" then some (.fin 0)
    else
      let c := parseFloatJS (stripDollarComma v)
      some (if c.isNaN then .fin 0 else c)
  | some _ => none

def collectNums (vars : List (String × Value)) : List String → Option (List (String × JSNum))
  | [] => some []
  | v :: rest =>
    match varNumValue (vars.lookup v) with
    | none => none
    | some n => (collectNums vars rest).map (fun l => (v, n) :: l)

/-- `s.split(pat).join(repl)`: replace every non-overlapping occurrence,
left to right (`pat` is never empty at the call sites). -/
def replaceAllAux (pat repl : List Char) : ℕ → List Char → List Char
  | 0, l => l
  | _ + 1, [] => []
  | fuel + 1, c :: rest =>
    if listPrefixOf pat (c :: rest) then
      repl ++ replaceAllAux pat repl fuel ((c :: rest).drop pat.length)
    else c :: replaceAllAux pat repl fuel rest

def replaceAll (l pat repl : List Char) : List Char := replaceAllAux pat repl l.length l

/-- The security filter `^[\d\s+\-*/().]+$`. -/
def formulaCharOK (c : Char) : Bool :=
  isDigitCh c || jsIsWS c || c = '+' || c = '-' || c = '*' || c = '/' ||
    c = '(' || c = ')' || c = '.'

/-- First operator position admissible for the lazy regexes
`(.+?)([+\-])(?!$)(.+)` and `(.+?)([*/])(.+)`: at least one character before
the operator and at least one after. -/
def findSplitAux (p : Char → Bool) : List Char → List Char → Option (List Char × Char × List Char)
  | _, [] => none
  | acc, c :: rest =>
    if p c ∧ !rest.isEmpty then some (acc.reverse, c, rest)
    else findSplitAux p (c :: acc) rest

def findSplit (p : Char → Bool) : List Char → Option (List Char × Char × List Char)
  | [] => none
  | c :: rest => findSplitAux p [c] rest

/-- `/[+\-*/]$/.test(left)`. -/
def endsWithOp (l : List Char) : Bool :=
  match l.getLast? with
  | some c => c = '+' || c = '-' || c = '*' || c = '/'
  | none => false

/-- JS floating-point addition on the extended numbers (exact on finite
values; `-0` is not distinguished). -/
def jsAdd : JSNum → JSNum → JSNum
  | .nan, _ => .nan
  | _, .nan => .nan
  | .posInf, .negInf => .nan
  | .negInf, .posInf => .nan
  | .posInf, _ => .posInf
  | _, .posInf => .posInf
  | .negInf, _ => .negInf
  | _, .negInf => .negInf
  | .fin a, .fin b => .fin (a + b)

def jsSub (a b : JSNum) : JSNum := jsAdd a b.neg

def jsMul : JSNum → JSNum → JSNum
  | .nan, _ => .nan
  | _, .nan => .nan
  | .posInf, .posInf => .posInf
  | .posInf, .negInf => .negInf
  | .negInf, .posInf => .negInf
  | .negInf, .negInf => .posInf
  | .posInf, .fin b => if b = 0 then .nan else if 0 < b then .posInf else .negInf
  | .fin a, .posInf => if a = 0 then .nan else if 0 < a then .posInf else .negInf
  | .negInf, .fin b => if b = 0 then .nan else if 0 < b then .negInf else .posInf
  | .fin a, .negInf => if a = 0 then .nan else if 0 < a then .negInf else .posInf
  | .fin a, .fin b => .fin (a * b)

def jsDiv : JSNum → JSNum → JSNum
  | .nan, _ => .nan
  | _, .nan => .nan
  | .posInf, .posInf => .nan
  | .posInf, .negInf => .nan
  | .negInf, .posInf => .nan
  | .negInf, .negInf => .nan
  | .posInf, .fin b => if 0 ≤ b then .posInf else .negInf
  | .negInf, .fin b => if 0 ≤ b then .negInf else .posInf
  | .fin _, .posInf => .fin 0
  | .fin _, .negInf => .fin 0
  | .fin a, .fin b =>
    if b = 0 then (if a = 0 then .nan else if 0 < a then .posInf else .negInf)
    else .fin (a / b)

/-- `parseFloat(expression) || 0` at the leaves. -/
def jsLeaf (s : List Char) : JSNum :=
  let v := parseFloatJS ⟨s⟩
  if v.isNaN then .fin 0 else v

/-- One global pass of `replace(/\(([^()]+)\)/g, cb)`: every innermost
non-empty group is evaluated with `ev` and spliced back; positions without a
match are copied unchanged. -/
def replaceParensAux (ev : List Char → Option JSNum) : ℕ → List Char → Option (List Char)
  | 0, l => some l
  | _ + 1, [] => some []
  | fuel + 1, c :: rest =>
    if c = '(' then
      let body := rest.takeWhile (fun d => !(d = '(' || d = ')'))
      match rest.drop body.length with
      | d :: rest2 =>
        if d = ')' ∧ !body.isEmpty then
          match ev body with
          | none => none
          | some v => (replaceParensAux ev fuel rest2).map (fun tail => v.toStr.toList ++ tail)
        else (replaceParensAux ev fuel rest).map (fun tail => c :: tail)
      | [] => (replaceParensAux ev fuel rest).map (fun tail => c :: tail)
    else (replaceParensAux ev fuel rest).map (fun tail => c :: tail)

def replaceParens (ev : List Char → Option JSNum) (l : List Char) : Option (List Char) :=
  replaceParensAux ev l.length l

/-- The `while (expression.includes('('))` rewriting loop; `none` when the
fuel runs out, which for a fixed point (for instance `()`, where the regex
matches nothing) happens at every fuel: the JS loop spins forever. -/
def parenLoopAux (ev : List Char → Option JSNum) : ℕ → List Char → Option (List Char)
  | 0, s => if s.contains '(' then none else some s
  | fuel + 1, s =>
    if s.contains '(' then (replaceParens ev s).bind (parenLoopAux ev fuel)
    else some s

/-- `evaluateMathExpression`, fuel-indexed. -/
def evalMath : ℕ → List Char → Option JSNum
  | 0, _ => none
  | fuel + 1, s0 =>
    let s := s0.filter (fun c => !jsIsWS c)
    match parenLoopAux (evalMath fuel) fuel s with
    | none => none
    | some s1 =>
      let mulDivLeaf : Option JSNum :=
        match findSplit (fun c => c = '*' || c = '/') s1 with
        | some (left, op, right) =>
          match evalMath fuel left, evalMath fuel right with
          | some lv, some rv => some (if op = '*' then jsMul lv rv else jsDiv lv rv)
          | _, _ => none
        | none => some (jsLeaf s1)
      match findSplit (fun c => c = '+' || c = '-') s1 with
      | some (left, op, right) =>
        if endsWithOp left then mulDivLeaf
        else
          match evalMath fuel left, evalMath fuel right with
          | some lv, some rv => some (if op = '+' then jsAdd lv rv else jsSub lv rv)
          | _, _ => none
      | none => mulDivLeaf

/-- `evaluateFormula`, fuel-indexed: `some s` is the JS return value `s`,
`none` means the underlying evaluator does not terminate. -/
def evaluateFormula (fuel : ℕ) (formula : String)
    (vars : List (String × Value)) : Option String :=
  if jsTrim formula = "" then some ""
  else
    match collectNums vars (findBraceVars formula.toList) with
    | none => some ""
    | some pairs =>
      let expression := pairs.foldl
        (fun e p => replaceAll e (lbrace :: p.1.toList ++ [rbrace]) p.2.toStr.toList)
        formula.toList
      if expression.all formulaCharOK ∧ !expression.isEmpty then
        match evalMath fuel expression with
        | none => none
        | some (.fin q) => some (qToString q)
        | some _ => some ""
      else some ""

lemma parenLoop_stuck_unit (ev : List Char → Option JSNum) :
    ∀ fuel, parenLoopAux ev fuel ['(', ')'] = none := by
  intro fuel
  induction fuel with
  | zero => rfl
  | succ fuel ih =>
    have hrep : replaceParens ev ['(', ')'] = some ['(', ')'] := rfl
    show (if (['(', ')'].contains '(') = true then
        (replaceParens ev ['(', ')']).bind (parenLoopAux ev fuel) else some ['(', ')']) = none
    rw [if_pos (by decide), hrep]
    simpa using ih

lemma evalMath_unit_parens_diverges : ∀ fuel, evalMath fuel "()".toList = none := by
  intro fuel
  cases fuel with
  | zero => rfl
  | succ fuel =>
    show (match parenLoopAux (evalMath fuel) fuel
        ("()".toList.filter (fun c => !jsIsWS c)) with
      | none => none
      | some s1 => _) = none
    have : "()".toList.filter (fun c => !jsIsWS c) = ['(', ')'] := rfl
    rw [this, parenLoop_stuck_unit (evalMath fuel) fuel]

/-- **C3.** The claim promises that `evaluateFormula` always returns a
string (empty on any failure).  The code violates this: on the formula
`"()"` — which passes the character filter — the parenthesis-rewriting
`while` loop of `evaluateMathExpression` never terminates (the regex cannot
match an empty group while `includes('(')` stays true), so no amount of fuel
produces a result.  On well-behaved input the function behaves as claimed,
e.g. the claim's own example `{a} * {b}` with `a = "10"`, `b = "5"`
evaluates to `"50"`. -/
theorem evaluateFormula_unit_parens_diverges :
    (∀ fuel, evaluateFormula fuel "()" [] = none) ∧
    evaluateFormula 30 "{a} * {b}" [("a", .str "10"), ("b", .str "5")] = some "50" := by
  constructor
  · intro fuel
    have hred : evaluateFormula fuel "()" [] =
        (match evalMath fuel "()".toList with
         | none => none
         | some (.fin q) => some (qToString q)
         | some _ => some "") := rfl
    rw [hred, evalMath_unit_parens_diverges fuel]
  · with_unfolding_all rfl

/-! ## Formatters used by the transformer -/

def MONTH_NAMES_EN : List String :=
  ["January", "February", "March", "April", "May", "June",
   "July", "August", "September", "October", "November", "December"]

def MONTH_NAMES_SHORT : List String :=
  ["Jan", "Feb", "Mar", "Apr", "May", "Jun",
   "Jul", "Aug", "Sep", "Oct", "Nov", "Dec"]

/-- A host clock reading (`new Date()` components in local time). -/
structure DateParts where
  year : ℕ
  month : ℕ
  day : ℕ
  hours : ℕ
  minutes : ℕ
  seconds : ℕ
deriving DecidableEq

def natToStr (n : ℕ) : String := ⟨natDigits n⟩

/-- `n.toString().padStart(2, '0')`. -/
def pad2 (n : ℕ) : String := ⟨padLeftZeros (natDigits n) 2⟩

def isLeapYear (y : ℕ) : Bool :=
  (y % 4 = 0 && !(y % 100 = 0)) || y % 400 = 0

def daysInMonth (y m : ℕ) : ℕ :=
  if m = 2 then (if isLeapYear y then 29 else 28)
  else if m = 4 ∨ m = 6 ∨ m = 9 ∨ m = 11 then 30
  else 31

/-- `new Date(string)` parsing, modelled for the ISO `YYYY-MM-DD[T…]` forms
the application stores (ECMA-262 only specifies ISO parsing; other host
formats are implementation-defined and treated as invalid here). -/
def jsParseDate (s : String) : Option (ℕ × ℕ × ℕ) :=
  match s.toList with
  | y1 :: y2 :: y3 :: y4 :: d1 :: m1 :: m2 :: d2 :: dd1 :: dd2 :: rest =>
    if ([y1, y2, y3, y4, m1, m2, dd1, dd2].all isDigitCh) ∧ d1 = '-' ∧ d2 = '-' ∧
        (rest = [] ∨ rest.head? = some 'T') then
      let y := natOfDigits [y1, y2, y3, y4]
      let m := natOfDigits [m1, m2]
      let d := natOfDigits [dd1, dd2]
      if 1 ≤ m ∧ m ≤ 12 ∧ 1 ≤ d ∧ d ≤ daysInMonth y m then some (y, m, d) else none
    else none
  | _ => none

/-- Replace the first occurrence of `pat` (`String.prototype.replace` with a
string pattern). -/
def replaceFirstAux (pat repl : List Char) : ℕ → List Char → List Char
  | 0, l => l
  | _ + 1, [] => []
  | fuel + 1, c :: rest =>
    if listPrefixOf pat (c :: rest) then repl ++ (c :: rest).drop pat.length
    else c :: replaceFirstAux pat repl fuel rest

def replaceFirst (s pat repl : String) : String :=
  ⟨replaceFirstAux pat.toList repl.toList s.toList.length s.toList⟩

/-- The format switch of `formatDate`, applied to resolved date components
(also used by `getCurrentDate` on the clock reading). -/
def formatDateParts (y m d : ℕ) (format : String) : String :=
  if format = "YYYY-MM-DD" then natToStr y ++ "-" ++ pad2 m ++ "-" ++ pad2 d
  else if format = "YYYY년 MM월 DD일" then
    natToStr y ++ "년 " ++ pad2 m ++ "월 " ++ pad2 d ++ "일"
  else if format = "MM/DD/YYYY" then pad2 m ++ "/" ++ pad2 d ++ "/" ++ natToStr y
  else if format = "MMMM D, YYYY" then
    (MONTH_NAMES_EN.getD (m - 1) "undefined") ++ " " ++ natToStr d ++ ", " ++ natToStr y
  else if format = "MMM D, YYYY" then
    (MONTH_NAMES_SHORT.getD (m - 1) "undefined") ++ " " ++ natToStr d ++ ", " ++ natToStr y
  else if format = "YYYY.MM.DD" then natToStr y ++ "." ++ pad2 m ++ "." ++ pad2 d
  else if format = "DD/MM/YYYY" then pad2 d ++ "/" ++ pad2 m ++ "/" ++ natToStr y
  else
    replaceFirst (replaceFirst (replaceFirst (replaceFirst (replaceFirst (replaceFirst
      (replaceFirst format "YYYY" (natToStr y)) "MM" (pad2 m)) "DD" (pad2 d))
      "MMMM" (MONTH_NAMES_EN.getD (m - 1) "undefined"))
      "MMM" (MONTH_NAMES_SHORT.getD (m - 1) "undefined"))
      "M" (natToStr m)) "D" (natToStr d)

/-- `formatDate` on a string input: empty input gives `''`, an unparseable
date echoes the input. -/
def formatDate (value : String) (format : String) : String :=
  if value = "" then ""
  else
    match jsParseDate value with
    | none => value
    | some (y, m, d) => formatDateParts y m d format

def getCurrentDate (now : DateParts) (format : String) : String :=
  formatDateParts now.year now.month now.day format

def getCurrentTime (now : DateParts) (format : String) : String :=
  if format = "HH:mm" then pad2 now.hours ++ ":" ++ pad2 now.minutes
  else if format = "HH:mm:ss" then
    pad2 now.hours ++ ":" ++ pad2 now.minutes ++ ":" ++ pad2 now.seconds
  else if format = "h:mm A" then
    let h := if now.hours % 12 = 0 then 12 else now.hours % 12
    let ampm := if now.hours < 12 then "AM" else "PM"
    natToStr h ++ ":" ++ pad2 now.minutes ++ " " ++ ampm
  else pad2 now.hours ++ ":" ++ pad2 now.minutes

/-- `new Date().toISOString()` (the model keeps one clock, ignoring the
UTC/local offset). -/
def toISOString (now : DateParts) : String :=
  ⟨padLeftZeros (natDigits now.year) 4⟩ ++ "-" ++ pad2 now.month ++ "-" ++ pad2 now.day ++
    "T" ++ pad2 now.hours ++ ":" ++ pad2 now.minutes ++ ":" ++ pad2 now.seconds ++ ".000Z"

/-- `generateDocumentNumber`; the host random suffix
(`Math.random().toString(36).substring(2, 8).toUpperCase()`) is the explicit
parameter `rand`. -/
def generateDocumentNumber (pfx : String) (includeDate : Bool)
    (now : DateParts) (rand : String) : String :=
  if includeDate then
    pfx ++ "-" ++ natToStr now.year ++ pad2 now.month ++ pad2 now.day ++ "-" ++ rand
  else pfx ++ "-" ++ rand

/-- `formatPhone`. -/
def formatPhone (phone : String) (format : String) : String :=
  if phone = "" then ""
  else
    let digits := (stripToDigits phone).toList
    if digits.length < 9 then phone
    else
      let formatted : String :=
        if listPrefixOf "02".toList digits then
          if digits.length = 9 then
            ⟨digits.take 2⟩ ++ "-" ++ ⟨(digits.drop 2).take 3⟩ ++ "-" ++ ⟨digits.drop 5⟩
          else
            ⟨digits.take 2⟩ ++ "-" ++ ⟨(digits.drop 2).take 4⟩ ++ "-" ++ ⟨digits.drop 6⟩
        else if digits.length = 10 then
          ⟨digits.take 3⟩ ++ "-" ++ ⟨(digits.drop 3).take 3⟩ ++ "-" ++ ⟨digits.drop 6⟩
        else if digits.length = 11 then
          ⟨digits.take 3⟩ ++ "-" ++ ⟨(digits.drop 3).take 4⟩ ++ "-" ++ ⟨digits.drop 7⟩
        else phone
      if format = "dashed" then formatted
      else if format = "dotted" then
        ⟨formatted.toList.map (fun c => if c = '-' then '.' else c)⟩
      else if format = "none" then ⟨digits⟩
      else formatted

def isWordCh (c : Char) : Bool :=
  isDigitCh c || (decide ('a' ≤ c) && decide (c ≤ 'z')) ||
    (decide ('A' ≤ c) && decide (c ≤ 'Z')) || c = '_'

/-- `replace(/\b\w/g, c => c.toUpperCase())`. -/
def titleGo : Bool → List Char → List Char
  | _, [] => []
  | prev, c :: rest =>
    (if isWordCh c ∧ !prev then upperCh c else c) :: titleGo (isWordCh c) rest

/-- `transformText`. -/
def transformText (text : String) (rule : String) : String :=
  if text = "" then ""
  else if rule = "uppercase" then jsToUpper text
  else if rule = "lowercase" then jsToLower text
  else if rule = "capitalize" then
    match text.toList with
    | [] => ""
    | c :: rest => ⟨upperCh c :: rest.map lowerCh⟩
  else if rule = "title" then ⟨titleGo false text.toList⟩
  else if rule = "trim" then jsTrim text
  else text

/-! ## Number-word formatters -/

def ONES : List String :=
  ["", "One", "Two", "Three", "Four", "Five", "Six", "Seven", "Eight", "Nine",
   "Ten", "Eleven", "Twelve", "Thirteen", "Fourteen", "Fifteen", "Sixteen",
   "Seventeen", "Eighteen", "Nineteen"]

def TENS : List String :=
  ["", "", "Twenty", "Thirty", "Forty", "Fifty", "Sixty", "Seventy", "Eighty", "Ninety"]

def SCALES : List String := ["", "Thousand", "Million", "Billion", "Trillion"]

def convertEnglishChunk (num : ℕ) : String :=
  if num = 0 then ""
  else
    let words : List String :=
      (if 0 < num / 100 then [ONES.getD (num / 100) "" ++ " Hundred"] else []) ++
      (if 0 < num % 100 then
        (if num % 100 < 20 then [ONES.getD (num % 100) ""]
         else [TENS.getD (num % 100 / 10) "" ++
           (if 0 < num % 10 then " " ++ ONES.getD (num % 10) "" else "")])
       else [])
    String.intercalate " " words

/-- The 3-character right-to-left chunks of `numStr` taken by the
`while (numStr.length > 0)` slicing loop, each parsed with
`parseInt(…) || 0`. -/
def sliceChunks3 (l : List Char) : List ℕ :=
  (((chunks3 l.reverse).map List.reverse).reverse).map
    (fun c => ((parseIntJS ⟨c⟩).getD 0).toNat)

/-- The chunk loop of `numberToEnglish` on the rendered number. -/
def numberToEnglishCore (numStr : String) : String :=
  let chunks := sliceChunks3 numStr.toList
  let words := (chunks.enum.map (fun p =>
    if p.2 = 0 then []
    else
      let scale := SCALES.getD (chunks.length - 1 - p.1) ""
      let chunkWords := convertEnglishChunk p.2
      if chunkWords = "" then [] else [chunkWords] ++ (if scale = "" then [] else [scale]))).flatten
  let joined := String.intercalate " " words
  if joined = "" then "Zero" else joined

/-- `numberToEnglish` on a number argument. -/
def numberToEnglishNum (n : JSNum) : String :=
  match n with
  | .nan => ""
  | .posInf => numberToEnglishCore "Infinity"
  | .negInf => "Negative " ++ numberToEnglishCore "Infinity"
  | .fin q =>
    if q = 0 then "Zero"
    else if q < 0 then "Negative " ++ numberToEnglishCore (qToString (-q))
    else numberToEnglishCore (qToString q)

/-- `numberToEnglish` on a string argument (`parseInt` of the digits). -/
def numberToEnglishStr (s : String) : String :=
  match parseIntJS (stripToDigits s) with
  | none => ""
  | some n => numberToEnglishNum (.fin n)

/-- `numberToEnglishCurrency` on a string argument. -/
def numberToEnglishCurrency (s : String) : String :=
  match parseIntJS (stripToDigits s) with
  | some 1 => "One Dollar"
  | some n => numberToEnglishNum (.fin n) ++ " Dollars"
  | none => numberToEnglishNum .nan ++ " Dollars"

def KOREAN_NUMBERS : List String := ["", "일", "이", "삼", "사", "오", "육", "칠", "팔", "구"]

def KOREAN_UNITS : List String := ["", "십", "백", "천"]

def KOREAN_BIG_UNITS : List String := ["", "만", "억", "조", "경"]

def convertChunk (num : ℕ) : String :=
  if num = 0 then ""
  else
    let digits := (padLeftZeros (natDigits num) 4).map digitVal
    String.join ((digits.enum.map (fun p =>
      if p.2 = 0 then ""
      else
        let unitIndex := 3 - p.1
        if p.2 = 1 ∧ 0 < unitIndex then KOREAN_UNITS.getD unitIndex ""
        else KOREAN_NUMBERS.getD p.2 "" ++ KOREAN_UNITS.getD unitIndex "")))

/-- 4-character right-to-left chunks for the Korean renderer. -/
def chunks4 : List Char → List (List Char)
  | [] => []
  | [a] => [[a]]
  | [a, b] => [[a, b]]
  | [a, b, c] => [[a, b, c]]
  | a :: b :: c :: d :: rest => [a, b, c, d] :: chunks4 rest

def sliceChunks4 (l : List Char) : List ℕ :=
  (((chunks4 l.reverse).map List.reverse).reverse).map
    (fun c => ((parseIntJS ⟨c⟩).getD 0).toNat)

/-- `numberToKorean` on a string argument (the transformer only passes
strings); `parseInt` of the digits, NaN and 0 both give `영`. -/
def numberToKorean (s : String) : String :=
  match parseIntJS (stripToDigits s) with
  | none => "영"
  | some n =>
    if n = 0 then "영"
    else
      let chunks := sliceChunks4 (natDigits n.toNat)
      let r := String.join (chunks.enum.map (fun p =>
        if p.2 = 0 then ""
        else
          let bigUnitIndex := chunks.length - 1 - p.1
          let bigUnit := KOREAN_BIG_UNITS.getD bigUnitIndex "undefined"
          if p.2 = 1 ∧ 0 < bigUnitIndex then bigUnit
          else convertChunk p.2 ++ bigUnit))
      if r = "" then "영" else r

def numberToKoreanCurrency (s : String) : String := numberToKorean s ++ "원"

def ORDINALS_ONES : List String :=
  ["", "First", "Second", "Third", "Fourth", "Fifth",
   "Sixth", "Seventh", "Eighth", "Ninth", "Tenth",
   "Eleventh", "Twelfth", "Thirteenth", "Fourteenth", "Fifteenth",
   "Sixteenth", "Seventeenth", "Eighteenth", "Nineteenth"]

def ORDINALS_TENS : List String :=
  ["", "", "Twentieth", "Thirtieth", "Fortieth", "Fiftieth",
   "Sixtieth", "Seventieth", "Eightieth", "Ninetieth"]

def TENS_BASE : List String :=
  ["", "", "Twenty", "Thirty", "Forty", "Fifty", "Sixty", "Seventy", "Eighty", "Ninety"]

def ordinalSmall (n : ℕ) : String :=
  if n < 20 then ORDINALS_ONES.getD n ""
  else if n % 10 = 0 then ORDINALS_TENS.getD (n / 10) ""
  else TENS_BASE.getD (n / 10) "" ++ " " ++ ORDINALS_ONES.getD (n % 10) ""

/-- `numberToOrdinal` on a string argument. -/
def numberToOrdinal (s : String) : String :=
  match parseIntJS (stripToDigits s) with
  | none => ""
  | some n =>
    let n := n.toNat
    if n < 1 then ""
    else if n < 100 then ordinalSmall n
    else if n % 100 = 0 then numberToEnglishNum (.fin (n / 100 : ℕ)) ++ " Hundredth"
    else numberToEnglishNum (.fin (n / 100 : ℕ)) ++ " Hundred " ++ ordinalSmall (n % 100)

/-! ## List formatters and helper variables -/

def formatListAnd (items : List String) : String :=
  match items with
  | [] => ""
  | [a] => a
  | [a, b] => a ++ " and " ++ b
  | _ => String.intercalate ", " items.dropLast ++ ", and " ++ items.getLast!

def formatListOr (items : List String) : String :=
  match items with
  | [] => ""
  | [a] => a
  | [a, b] => a ++ " or " ++ b
  | _ => String.intercalate ", " items.dropLast ++ ", or " ++ items.getLast!

def formatListComma (items : List String) : String := String.intercalate ", " items

def formatListNewline (items : List String) : String := String.intercalate "\n" items

/-- JS object update: an existing property keeps its position, a new one is
appended. -/
def setVar (m : List (String × Value)) (k : String) (v : Value) : List (String × Value) :=
  if (m.lookup k).isSome then m.map (fun p => if p.1 = k then (k, v) else p)
  else m ++ [(k, v)]

/-- `charAt(0).toUpperCase() + slice(1)`. -/
def capFirst (s : String) : String :=
  match s.toList with
  | [] => ""
  | c :: rest => ⟨upperCh c :: rest⟩

/-- `generateArrayHelperVariables`, as a variable map in insertion order. -/
def generateArrayHelperVariables (baseName : String) (items : List String) :
    List (String × Value) :=
  let capitalizedName := capFirst baseName
  let m : List (String × Value) := []
  let m := setVar m (baseName ++ "Count") (.str (natToStr items.length))
  let m := setVar m (baseName ++ "Formatted") (.str (formatListAnd items))
  let m := setVar m (baseName ++ "List") (.str (formatListComma items))
  let m := setVar m (baseName ++ "OrList") (.str (formatListOr items))
  let m := if 0 < items.length then
      setVar (setVar m (baseName ++ "First") (.str (items.headD "")))
        (baseName ++ "Last") (.str (items.getLastD ""))
    else m
  let m := setVar m ("hasMultiple" ++ capitalizedName) (.str (if 2 ≤ items.length then "true" else ""))
  let m := setVar m ("hasSingle" ++ capitalizedName) (.str (if items.length = 1 then "true" else ""))
  let m := setVar m ("hasNo" ++ capitalizedName) (.str (if items.length = 0 then "true" else ""))
  let m := items.enum.foldl
    (fun acc p => setVar acc (baseName ++ natToStr (p.1 + 1)) (.str p.2)) m
  setVar m baseName (.loopArr (items.enum.map (fun p =>
    { value := p.2, isFirst := p.1 == 0, isLast := p.1 == items.length - 1, index := p.1 + 1 })))

/-! ## The survey-to-variables transformer (`transformSurveyToVariables`) -/

abbrev VarMap := List (String × Value)

/-- JS truthiness of a stored variable value (arrays are truthy even when
empty). -/
def valueTruthy : Value → Bool
  | .str s => s ≠ ""
  | _ => true

def lookupTruthy (m : VarMap) (k : String) : Bool :=
  match m.lookup k with
  | none => false
  | some v => valueTruthy v

/-- JS truthiness of a raw response value. -/
def jsvTruthy : JSValue → Bool
  | .str s => s ≠ ""
  | _ => true

/-- `x || d` on an optional string. -/
def jsOrOpt (o : Option String) (d : String) : String :=
  match o with
  | some s => if s = "" then d else s
  | none => d

/-- `typeof v === 'string' ? v : (Array.isArray(v) && v.length > 0 ?
String(v[0]) : fallback)` — `String` of a record renders
`"[object Object]"`. -/
def jsValueFirstString (v : JSValue) (fallback : String) : String :=
  match v with
  | .str s => s
  | .strList (x :: _) => x
  | .strList [] => fallback
  | .recList (_ :: _) => "[object Object]"
  | .recList [] => fallback

def currentDateBlock (now : DateParts) (m : VarMap) (outName : String) : VarMap :=
  let m := setVar m outName (.str (getCurrentDate now "MMMM D, YYYY"))
  let m := setVar m (outName ++ "Short") (.str (getCurrentDate now "MM/DD/YYYY"))
  let m := setVar m (outName ++ "ISO") (.str (getCurrentDate now "YYYY-MM-DD"))
  setVar m (outName ++ "KR") (.str (getCurrentDate now "YYYY년 MM월 DD일"))

/-- The `__COIDate` / `__SIGNDate` blocks of the transformer. -/
def adminDateBlock (responses : List SurveyResponse) (now : DateParts)
    (m : VarMap) (qid outName : String) : VarMap :=
  match responses.find? (fun r => r.questionId = qid) with
  | some r =>
    if jsvTruthy r.value then
      let v := jsValueFirstString r.value (toISOString now)
      let m := setVar m outName (.str (formatDate v "MMMM D, YYYY"))
      let m := setVar m (outName ++ "Short") (.str (formatDate v "MM/DD/YYYY"))
      let m := setVar m (outName ++ "ISO") (.str (formatDate v "YYYY-MM-DD"))
      setVar m (outName ++ "KR") (.str (formatDate v "YYYY년 MM월 DD일"))
    else currentDateBlock now m outName
  | none => currentDateBlock now m outName

/-- Steps 1–3 of the transformer: the automatically generated date/time and
document-number variables and the admin date blocks. -/
def autoVariables (responses : List SurveyResponse) (options : TransformOptions)
    (now : DateParts) (rand : String) : VarMap :=
  let m : VarMap := []
  let m := setVar m "currentDate" (.str (getCurrentDate now "MMMM D, YYYY"))
  let m := setVar m "currentDateShort" (.str (getCurrentDate now "MM/DD/YYYY"))
  let m := setVar m "currentDateISO" (.str (getCurrentDate now "YYYY-MM-DD"))
  let m := setVar m "currentTime" (.str (getCurrentTime now "h:mm A"))
  let m := setVar m "documentNumber"
    (.str (jsOrOpt options.documentNumber (generateDocumentNumber "FR" true now rand)))
  let m := setVar m "currentYear" (.str (natToStr now.year))
  let m := setVar m "currentDateKR" (.str (getCurrentDate now "YYYY년 MM월 DD일"))
  let m := adminDateBlock responses now m "__COIDate" "COIDate"
  adminDateBlock responses now m "__SIGNDate" "SIGNDate"

/-- The numeric-field formatting of step 4 (`numericFields = ['cash']`):
`item[fieldName] || ''`, comma-stripped `parseFloat`, formatted when not
NaN. -/
def groupFieldValue (fieldName : String) (item : List (String × String)) : String :=
  let val := (item.lookup fieldName).getD ""
  if jsToLower fieldName = "cash" ∧ val ≠ "" then
    let numVal := parseFloatJS (stripCommas val)
    if numVal.isNaN then val else formatNumberWithComma (.num numVal)
  else val

/-- The per-field body of the step-4 group loop. -/
def processGroupField (baseName : String) (groupItems : List (List (String × String)))
    (m : VarMap) (fieldName : String) : VarMap :=
  let fieldValues := groupItems.map (groupFieldValue fieldName)
  let fieldCapitalized := capFirst fieldName
  let m := setVar m (baseName ++ fieldCapitalized ++ "Formatted") (.str (formatListAnd fieldValues))
  let m := setVar m (baseName ++ fieldCapitalized ++ "List") (.str (formatListComma fieldValues))
  let m := setVar m (baseName ++ fieldCapitalized ++ "OrList") (.str (formatListOr fieldValues))
  let singular : String := ⟨baseName.toList.dropLast⟩
  let singularCapitalized := capFirst singular
  fieldValues.enum.foldl (fun acc p =>
    let acc := setVar acc (singular ++ natToStr (p.1 + 1) ++ fieldCapitalized) (.str p.2)
    let acc := setVar acc (singularCapitalized ++ natToStr (p.1 + 1) ++ fieldCapitalized) (.str p.2)
    setVar acc (baseName ++ natToStr (p.1 + 1) ++ fieldCapitalized) (.str p.2)) m

/-- One iteration of the step-4 response loop: repeating groups (a non-empty
record array) produce count/flag/field variables and the loop array. -/
def processGroup (m : VarMap) (response : SurveyResponse) : VarMap :=
  match response.value with
  | .recList (g0 :: gs) =>
    let groupItems := g0 :: gs
    let baseName := response.questionId
    let m := setVar m (baseName ++ "Count") (.str (natToStr groupItems.length))
    let capitalizedName := capFirst baseName
    let m := setVar m ("hasMultiple" ++ capitalizedName)
      (.str (if 2 ≤ groupItems.length then "true" else ""))
    let m := setVar m ("hasSingle" ++ capitalizedName)
      (.str (if groupItems.length = 1 then "true" else ""))
    let fieldNames := (g0.map Prod.fst).eraseDups
    let m := fieldNames.foldl (processGroupField baseName groupItems) m
    setVar m baseName (.groupArr (groupItems.enum.map (fun p =>
      { fields := p.2.map (fun kv =>
          if jsToLower kv.1 = "cash" ∧ kv.2 ≠ "" then
            let numVal := parseFloatJS (stripCommas kv.2)
            if numVal.isNaN then kv else (kv.1, formatNumberWithComma (.num numVal))
          else kv),
        index := p.1 + 1,
        isFirst := p.1 == 0,
        isLast := p.1 == groupItems.length - 1 })))
  | _ => m

/-- Step 5: the `__authorizedShares`, `__parValue` and `__fairMarketValue`
admin blocks. -/
def adminShareValues (responses : List SurveyResponse) (m : VarMap) : VarMap :=
  let m := match responses.find? (fun r => r.questionId = "__authorizedShares") with
    | some r =>
      if jsvTruthy r.value then
        let authSharesValue := jsValueFirstString r.value "0"
        let numValue := parseFloatJS (stripCommas authSharesValue)
        let m := setVar m "authorizedShares" (.str (formatNumberWithComma (.num numValue)))
        let m := setVar m "authorizedSharesRaw" (.str numValue.toStr)
        setVar m "authorizedSharesEnglish" (.str (numberToEnglishNum numValue))
      else m
    | none => m
  let m := match responses.find? (fun r => r.questionId = "__parValue") with
    | some r =>
      if jsvTruthy r.value then
        let parVal := jsValueFirstString r.value "0"
        let m := setVar m "parValue" (.str parVal)
        setVar m "parValueDollar" (.str ("$" ++ parVal))
      else m
    | none => m
  match responses.find? (fun r => r.questionId = "__fairMarketValue") with
  | some r =>
    if jsvTruthy r.value then
      let fmvVal := jsValueFirstString r.value "0"
      let m := setVar m "fairMarketValue" (.str fmvVal)
      let m := setVar m "fairMarketValueDollar" (.str ("$" ++ fmvVal))
      setVar m "FMV" (.str ("$" ++ fmvVal))
    else m
  | none => m

/-- `mapping.questionId.substring(2).split('.')` destructured to its first
two components (a missing second component is falsy, modelled `""`). -/
def dottedParts (qid : String) : String × String :=
  match splitOnCh '.' (qid.toList.drop 2) with
  | a :: b :: _ => (⟨a⟩, ⟨b⟩)
  | [a] => (⟨a⟩, "")
  | [] => ("", "")

/-- The regex `^__(founder|director)\.(\d+)\.(\w+)$` (a branch of step 6 that
is unreachable: any such id is caught by the earlier group-field branch). -/
def individualTail (sing : String) (rest : List Char) : Option (String × ℕ × String) :=
  let digits := rest.takeWhile isDigitCh
  let after := rest.dropWhile isDigitCh
  if digits ≠ [] ∧ after.head? = some '.' ∧ (after.drop 1) ≠ [] ∧ (after.drop 1).all isWordCh then
    some (sing, natOfDigits digits, ⟨after.drop 1⟩)
  else none

def individualMatch (qid : String) : Option (String × ℕ × String) :=
  if listPrefixOf "__founder.".toList qid.toList then
    individualTail "founder" (qid.toList.drop 10)
  else if listPrefixOf "__director.".toList qid.toList then
    individualTail "director" (qid.toList.drop 11)
  else none

/-- The `dataType`/`transformRule` switch applied to a scalar response value
in step 6. -/
def transformScalar (dataType transformRule value : String) : String :=
  if dataType = "date" then
    formatDate value (if transformRule = "" then "YYYY-MM-DD" else transformRule)
  else if dataType = "number" then
    if transformRule = "comma" then formatNumberWithComma (.str value)
    else if transformRule = "number_english" then numberToEnglishStr value
    else if transformRule = "ordinal_english" then numberToOrdinal value
    else value
  else if dataType = "currency" then
    if transformRule = "number_english" then numberToEnglishCurrency value
    else if transformRule = "number_korean" then numberToKoreanCurrency value
    else if transformRule = "comma_dollar" then "$" ++ formatNumberWithComma (.str value)
    else if transformRule = "comma_dollar_cents" then
      "$" ++ jsToLocaleFixed (parseFloatJS (stripToNumChars value)) 2
    else if transformRule = "comma_won" then formatNumberWithComma (.str value) ++ "원"
    else "$" ++ formatNumberWithComma (.str value)
  else if dataType = "phone" then
    formatPhone value (if transformRule = "" then "dashed" else transformRule)
  else if dataType = "email" then jsTrim (jsToLower value)
  else transformText value (if transformRule = "" then "none" else transformRule)

/-- The string-array branch of the step-6 mapping loop: helper variables are
written first (including the loop array at `variableKey`), then the
formatted string overwrites `variableKey`. -/
def mappingStringArray (m : VarMap) (variableKey : String) (mapping : VariableMapping)
    (items : List String) : VarMap :=
  let helpers := generateArrayHelperVariables variableKey items
  let m := helpers.foldl (fun acc kv => setVar acc kv.1 kv.2) m
  let transformedValue :=
    if mapping.transformRule = "list_and" then formatListAnd items
    else if mapping.transformRule = "list_or" then formatListOr items
    else if mapping.transformRule = "list_comma" then formatListComma items
    else if mapping.transformRule = "list_newline" then formatListNewline items
    else formatListAnd items
  setVar m variableKey (.str transformedValue)

/-- One iteration of the step-6 mapping loop. -/
def processMapping (responses : List SurveyResponse) (m : VarMap)
    (mapping : VariableMapping) : VarMap :=
  let variableKey := mapping.variableName
  if mapping.questionId = "__manual__" then
    match mapping.defaultValue with
    | some s => if s = "" then m else setVar m variableKey (.str s)
    | none => m
  else if mapping.questionId = "__calculated__" then m
  else if listPrefixOf "__".toList mapping.questionId.toList ∧
      mapping.questionId.toList.contains '.' ∧
      (dottedParts mapping.questionId).1 ≠ "" ∧ (dottedParts mapping.questionId).2 ≠ "" then
    let gp := (dottedParts mapping.questionId).1
    let fieldCapitalized := capFirst (dottedParts mapping.questionId).2
    let sourceVariable :=
      if mapping.transformRule = "list_or" then gp ++ fieldCapitalized ++ "OrList"
      else if mapping.transformRule = "list_comma" then gp ++ fieldCapitalized ++ "List"
      else gp ++ fieldCapitalized ++ "Formatted"
    if lookupTruthy m sourceVariable then
      setVar m variableKey ((m.lookup sourceVariable).getD (.str ""))
    else setVar m variableKey (.str (jsOrOpt mapping.defaultValue ""))
  else if mapping.questionId = "__foundersCount" ∨ mapping.questionId = "__directorsCount" then
    let countVar : String := ⟨mapping.questionId.toList.drop 2⟩
    if lookupTruthy m countVar then
      setVar m variableKey ((m.lookup countVar).getD (.str ""))
    else setVar m variableKey (.str (jsOrOpt mapping.defaultValue "0"))
  else match individualMatch mapping.questionId with
    | some (sing, idx, fn) =>
      let fieldCapitalized := capFirst fn
      let sourceVariable := capFirst sing ++ natToStr idx ++ fieldCapitalized
      if lookupTruthy m sourceVariable then
        setVar m variableKey ((m.lookup sourceVariable).getD (.str ""))
      else
        let lowerSourceVariable := sing ++ natToStr idx ++ fieldCapitalized
        if lookupTruthy m lowerSourceVariable then
          setVar m variableKey ((m.lookup lowerSourceVariable).getD (.str ""))
        else setVar m variableKey (.str (jsOrOpt mapping.defaultValue ""))
    | none =>
      match responses.find? (fun r => r.questionId = mapping.questionId) with
      | none => setVar m variableKey (.str (jsOrOpt mapping.defaultValue ""))
      | some r =>
        match r.value with
        | .str s =>
          if s = "" then setVar m variableKey (.str (jsOrOpt mapping.defaultValue ""))
          else setVar m variableKey
            (.str (transformScalar mapping.dataType mapping.transformRule s))
        | .strList items => mappingStringArray m variableKey mapping items
        | .recList (_ :: _) => m
        | .recList [] => mappingStringArray m variableKey mapping []

/-- The `dataType`/`transformRule` switch of the step-7 calculated loop
(note: `comma_dollar_cents` here parses the raw calculated value). -/
def transformCalculated (dataType transformRule calculatedValue : String) : String :=
  if dataType = "number" then
    if transformRule = "comma" then formatNumberWithComma (.str calculatedValue)
    else if transformRule = "number_english" then numberToEnglishStr calculatedValue
    else if transformRule = "ordinal_english" then numberToOrdinal calculatedValue
    else calculatedValue
  else if dataType = "currency" then
    if transformRule = "number_english" then numberToEnglishCurrency calculatedValue
    else if transformRule = "number_korean" then numberToKoreanCurrency calculatedValue
    else if transformRule = "comma_dollar" then "$" ++ formatNumberWithComma (.str calculatedValue)
    else if transformRule = "comma_dollar_cents" then
      "$" ++ jsToLocaleFixed (parseFloatJS calculatedValue) 2
    else if transformRule = "comma_won" then formatNumberWithComma (.str calculatedValue) ++ "원"
    else "$" ++ formatNumberWithComma (.str calculatedValue)
  else calculatedValue

/-- One iteration of the step-7 calculated-variable loop; `none` when the
formula evaluation diverges. -/
def processCalculated (fuel : ℕ) (m : VarMap) (mapping : VariableMapping) : Option VarMap :=
  if mapping.questionId ≠ "__calculated__" then some m
  else
    match mapping.formula with
    | none => some m
    | some f =>
      if f = "" then some m
      else
        match evaluateFormula fuel f m with
        | none => none
        | some calculatedValue =>
          if calculatedValue ≠ "" then
            some (setVar m mapping.variableName
              (.str (transformCalculated mapping.dataType mapping.transformRule calculatedValue)))
          else
            match mapping.defaultValue with
            | some s =>
              if s = "" then some m else some (setVar m mapping.variableName (.str s))
            | none => some m

def processCalculatedList (fuel : ℕ) : List VariableMapping → VarMap → Option VarMap
  | [], m => some m
  | mp :: rest, m =>
    match processCalculated fuel m mp with
    | none => none
    | some m2 => processCalculatedList fuel rest m2

/-- `(result[k] || '0')` read as a string; `none` models the TypeError thrown
when `.replace` is called on an array value stored at `k`. -/
def shareReadStr (m : VarMap) (k : String) : Option String :=
  match m.lookup k with
  | none => some "0"
  | some (.str s) => some (if s = "" then "0" else s)
  | some _ => none

/-- The `Founder1Share` fallback: no cash-positivity requirement. -/
def founder1Fallback (m : VarMap) : Option VarMap :=
  if ¬ lookupTruthy m "Founder1Share" ∧ lookupTruthy m "Founder1Cash" ∧ lookupTruthy m "FMV" then
    match shareReadStr m "Founder1Cash", shareReadStr m "FMV" with
    | some cs, some fs =>
      let founder1CashNum := parseFloatJS (stripDollarComma cs)
      let fmvNum := parseFloatJS (stripDollarComma fs)
      if ¬ founder1CashNum.isNaN ∧ ¬ fmvNum.isNaN ∧ fmvNum ≠ .fin 0 then
        some (setVar m "Founder1Share"
          (.str (formatNumberWithComma (.num (jsDiv founder1CashNum fmvNum)))))
      else some m
    | _, _ => none
  else some m

/-- One iteration of the `Founder2Share` … `Founder9Share` fallback loop:
additionally requires a positive cash amount. -/
def founderIFallback (m : VarMap) (i : ℕ) : Option VarMap :=
  let cashKey := "Founder" ++ natToStr i ++ "Cash"
  let shareKey := "Founder" ++ natToStr i ++ "Share"
  if ¬ lookupTruthy m shareKey ∧ lookupTruthy m cashKey ∧ lookupTruthy m "FMV" then
    match shareReadStr m cashKey, shareReadStr m "FMV" with
    | some cs, some fs =>
      let founderCashNum := parseFloatJS (stripDollarComma cs)
      let fmvNum := parseFloatJS (stripDollarComma fs)
      if ¬ founderCashNum.isNaN ∧ ¬ fmvNum.isNaN ∧ fmvNum ≠ .fin 0 ∧
          JSNum.ltb (.fin 0) founderCashNum then
        some (setVar m shareKey
          (.str (formatNumberWithComma (.num (jsDiv founderCashNum fmvNum)))))
      else some m
    | _, _ => none
  else some m

/-- The whole share-fallback pass (the final step of the transformer). -/
def shareFallback (m : VarMap) : Option VarMap :=
  match founder1Fallback m with
  | none => none
  | some m1 =>
    (List.range' 2 8).foldl (fun acc i =>
      match acc with
      | none => none
      | some mm => founderIFallback mm i) (some m1)

/-- `transformSurveyToVariables`. The host clock (`now`) and the random
document-number suffix (`rand`) are explicit parameters; `none` models an
abnormal run: divergence inside `evaluateFormula`, or the TypeError thrown
when the share fallback calls `.replace` on an array value. -/
def transformSurveyToVariables (fuel : ℕ) (responses : List SurveyResponse)
    (variableMappings : List VariableMapping) (options : TransformOptions)
    (now : DateParts) (rand : String) : Option VarMap :=
  let m := autoVariables responses options now rand
  let m := responses.foldl processGroup m
  let m := adminShareValues responses m
  let m := variableMappings.foldl (processMapping responses) m
  match processCalculatedList fuel variableMappings m with
  | none => none
  | some m2 => shareFallback m2

/-! ## C9: determinism of the transformer -/

lemma autoVariables_pinned (rs : List SurveyResponse) (opts : TransformOptions)
    (now : DateParts) (rand1 rand2 : String) (s : String)
    (hpin : opts.documentNumber = some s) (hne : s ≠ "") :
    autoVariables rs opts now rand1 = autoVariables rs opts now rand2 := by
  simp only [autoVariables, jsOrOpt, hpin, if_neg hne]

/-- C9: with a pinned, non-empty `options.documentNumber` the transformer's
output does not depend on the host random suffix at all; two such runs with
the same clock reading agree exactly. (The claim's stronger reading — that
`documentNumber` is the only hidden nondeterminism — fails: the clock leaks
into many variables, see the counterexample.) -/
theorem transform_pinned_rand_independent (fuel : ℕ) (rs : List SurveyResponse)
    (ms : List VariableMapping) (opts : TransformOptions) (now : DateParts)
    (rand1 rand2 : String) (s : String) (hpin : opts.documentNumber = some s)
    (hne : s ≠ "") :
    transformSurveyToVariables fuel rs ms opts now rand1 =
      transformSurveyToVariables fuel rs ms opts now rand2 := by
  simp only [transformSurveyToVariables,
    autoVariables_pinned rs opts now rand1 rand2 s hpin hne]

theorem transform_pinned_rand_independent_witness :
    transformSurveyToVariables 30 [] [] { documentNumber := some "DOC-1" }
        ⟨2026, 1, 31, 14, 5, 9⟩ "AAAAAA" =
      transformSurveyToVariables 30 [] [] { documentNumber := some "DOC-1" }
        ⟨2026, 1, 31, 14, 5, 9⟩ "BBBBBB" :=
  transform_pinned_rand_independent 30 [] [] { documentNumber := some "DOC-1" }
    ⟨2026, 1, 31, 14, 5, 9⟩ "AAAAAA" "BBBBBB" "DOC-1" rfl (by decide)

/-- C9 counterexample: two runs with identical responses, mappings and
options (documentNumber pinned to "DOC-1") but one minute apart on the host
clock produce different maps — `currentTime` differs — so `documentNumber`
is not the only hidden source of nondeterminism. -/
theorem transform_clock_dependence_counterexample :
    transformSurveyToVariables 30 [] [] { documentNumber := some "DOC-1" }
        ⟨2026, 1, 31, 14, 5, 9⟩ "AAAAAA" ≠
      transformSurveyToVariables 30 [] [] { documentNumber := some "DOC-1" }
        ⟨2026, 1, 31, 14, 6, 9⟩ "AAAAAA" := by
  with_unfolding_all decide

/-! ## C4: the Founder share fallback -/

/-- C4 (amended): the exact behaviour of the share fallback, the final step
of `transformSurveyToVariables` (first conjunct, definitional). With the
`Founder1Share` entry absent or the empty string and non-empty string values
at `Founder1Cash` and `FMV` (second conjunct), the share is written iff both
parse (after stripping `$`/`,`) and the FMV is non-zero — a zero or negative
cash amount still triggers the write; for `Founder{i}Share`, `i ≥ 2` (third
conjunct), the cash amount must additionally be strictly positive. If the
guard passes but either read entry holds an array instead of a string, the
step throws a TypeError and no map is returned (fourth and fifth conjuncts).
When the share entry is truthy, or the cash or FMV entry is absent or falsy,
the step leaves the map untouched (sixth and seventh conjuncts). -/
theorem founderShare_fallback_characterization :
    (∀ fuel rs ms opts now rand,
      transformSurveyToVariables fuel rs ms opts now rand =
        match processCalculatedList fuel ms
            (ms.foldl (processMapping rs)
              (adminShareValues rs (rs.foldl processGroup (autoVariables rs opts now rand)))) with
        | none => none
        | some m2 => shareFallback m2) ∧
    (∀ m : VarMap, ∀ cs fs : String,
      (m.lookup "Founder1Share" = none ∨ m.lookup "Founder1Share" = some (.str "")) →
      m.lookup "Founder1Cash" = some (.str cs) → cs ≠ "" →
      m.lookup "FMV" = some (.str fs) → fs ≠ "" →
      ((¬ (parseFloatJS (stripDollarComma cs)).isNaN ∧
          ¬ (parseFloatJS (stripDollarComma fs)).isNaN ∧
          parseFloatJS (stripDollarComma fs) ≠ .fin 0) →
        founder1Fallback m = some (setVar m "Founder1Share"
          (.str (formatNumberWithComma (.num (jsDiv (parseFloatJS (stripDollarComma cs))
            (parseFloatJS (stripDollarComma fs)))))))) ∧
      (¬ (¬ (parseFloatJS (stripDollarComma cs)).isNaN ∧
          ¬ (parseFloatJS (stripDollarComma fs)).isNaN ∧
          parseFloatJS (stripDollarComma fs) ≠ .fin 0) →
        founder1Fallback m = some m)) ∧
    (∀ m : VarMap, ∀ i : ℕ, ∀ cs fs : String,
      (m.lookup ("Founder" ++ natToStr i ++ "Share") = none ∨
        m.lookup ("Founder" ++ natToStr i ++ "Share") = some (.str "")) →
      m.lookup ("Founder" ++ natToStr i ++ "Cash") = some (.str cs) → cs ≠ "" →
      m.lookup "FMV" = some (.str fs) → fs ≠ "" →
      ((¬ (parseFloatJS (stripDollarComma cs)).isNaN ∧
          ¬ (parseFloatJS (stripDollarComma fs)).isNaN ∧
          parseFloatJS (stripDollarComma fs) ≠ .fin 0 ∧
          JSNum.ltb (.fin 0) (parseFloatJS (stripDollarComma cs))) →
        founderIFallback m i = some (setVar m ("Founder" ++ natToStr i ++ "Share")
          (.str (formatNumberWithComma (.num (jsDiv (parseFloatJS (stripDollarComma cs))
            (parseFloatJS (stripDollarComma fs)))))))) ∧
      (¬ (¬ (parseFloatJS (stripDollarComma cs)).isNaN ∧
          ¬ (parseFloatJS (stripDollarComma fs)).isNaN ∧
          parseFloatJS (stripDollarComma fs) ≠ .fin 0 ∧
          JSNum.ltb (.fin 0) (parseFloatJS (stripDollarComma cs))) →
        founderIFallback m i = some m)) ∧
    (∀ m : VarMap, ∀ vc vf : Value,
      (m.lookup "Founder1Share" = none ∨ m.lookup "Founder1Share" = some (.str "")) →
      m.lookup "Founder1Cash" = some vc → m.lookup "FMV" = some vf →
      valueTruthy vc = true → valueTruthy vf = true →
      ((∀ s, vc ≠ .str s) ∨ (∀ s, vf ≠ .str s)) →
      founder1Fallback m = none) ∧
    (∀ m : VarMap, ∀ i : ℕ, ∀ vc vf : Value,
      (m.lookup ("Founder" ++ natToStr i ++ "Share") = none ∨
        m.lookup ("Founder" ++ natToStr i ++ "Share") = some (.str "")) →
      m.lookup ("Founder" ++ natToStr i ++ "Cash") = some vc → m.lookup "FMV" = some vf →
      valueTruthy vc = true → valueTruthy vf = true →
      ((∀ s, vc ≠ .str s) ∨ (∀ s, vf ≠ .str s)) →
      founderIFallback m i = none) ∧
    (∀ m : VarMap,
      (lookupTruthy m "Founder1Share" = true ∨ lookupTruthy m "Founder1Cash" = false ∨
        lookupTruthy m "FMV" = false) →
      founder1Fallback m = some m) ∧
    (∀ m : VarMap, ∀ i : ℕ,
      (lookupTruthy m ("Founder" ++ natToStr i ++ "Share") = true ∨
        lookupTruthy m ("Founder" ++ natToStr i ++ "Cash") = false ∨
        lookupTruthy m "FMV" = false) →
      founderIFallback m i = some m) := by
  refine ⟨fun _ _ _ _ _ _ => rfl, ?_, ?_, ?_, ?_, ?_, ?_⟩
  · intro m cs fs hshare hcash hcs hfmv hfs
    have hguard : (¬ lookupTruthy m "Founder1Share" ∧ lookupTruthy m "Founder1Cash" ∧
        lookupTruthy m "FMV") := by
      refine ⟨?_, ?_, ?_⟩
      · rcases hshare with hs | hs <;> simp [lookupTruthy, hs, valueTruthy]
      · simp [lookupTruthy, hcash, valueTruthy, hcs]
      · simp [lookupTruthy, hfmv, valueTruthy, hfs]
    constructor
    · intro htrig
      simp only [founder1Fallback, if_pos hguard, shareReadStr, hcash, hfmv,
        if_neg hcs, if_neg hfs, if_pos htrig]
    · intro htrig
      simp only [founder1Fallback, if_pos hguard, shareReadStr, hcash, hfmv,
        if_neg hcs, if_neg hfs, if_neg htrig]
  · intro m i cs fs hshare hcash hcs hfmv hfs
    have hguard : (¬ lookupTruthy m ("Founder" ++ natToStr i ++ "Share") ∧
        lookupTruthy m ("Founder" ++ natToStr i ++ "Cash") ∧ lookupTruthy m "FMV") := by
      refine ⟨?_, ?_, ?_⟩
      · rcases hshare with hs | hs <;> simp [lookupTruthy, hs, valueTruthy]
      · simp [lookupTruthy, hcash, valueTruthy, hcs]
      · simp [lookupTruthy, hfmv, valueTruthy, hfs]
    constructor
    · intro htrig
      simp only [founderIFallback, if_pos hguard, shareReadStr, hcash, hfmv,
        if_neg hcs, if_neg hfs, if_pos htrig]
    · intro htrig
      simp only [founderIFallback, if_pos hguard, shareReadStr, hcash, hfmv,
        if_neg hcs, if_neg hfs, if_neg htrig]
  · intro m vc vf hshare hcash hfmv htc htf harr
    have hguard : (¬ lookupTruthy m "Founder1Share" ∧ lookupTruthy m "Founder1Cash" ∧
        lookupTruthy m "FMV") := by
      refine ⟨?_, ?_, ?_⟩
      · rcases hshare with hs | hs <;> simp [lookupTruthy, hs, valueTruthy]
      · simp [lookupTruthy, hcash, htc]
      · simp [lookupTruthy, hfmv, htf]
    rcases harr with harr | harr
    · cases vc with
      | str s => exact absurd rfl (harr s)
      | loopArr l =>
        simp [founder1Fallback, shareReadStr, hcash, hguard.1, hguard.2.1, hguard.2.2]
      | groupArr l =>
        simp [founder1Fallback, shareReadStr, hcash, hguard.1, hguard.2.1, hguard.2.2]
    · cases vf with
      | str s => exact absurd rfl (harr s)
      | loopArr l =>
        cases vc <;>
          simp [founder1Fallback, shareReadStr, hcash, hfmv, hguard.1, hguard.2.1, hguard.2.2]
      | groupArr l =>
        cases vc <;>
          simp [founder1Fallback, shareReadStr, hcash, hfmv, hguard.1, hguard.2.1, hguard.2.2]
  · intro m i vc vf hshare hcash hfmv htc htf harr
    have hguard : (¬ lookupTruthy m ("Founder" ++ natToStr i ++ "Share") ∧
        lookupTruthy m ("Founder" ++ natToStr i ++ "Cash") ∧ lookupTruthy m "FMV") := by
      refine ⟨?_, ?_, ?_⟩
      · rcases hshare with hs | hs <;> simp [lookupTruthy, hs, valueTruthy]
      · simp [lookupTruthy, hcash, htc]
      · simp [lookupTruthy, hfmv, htf]
    rcases harr with harr | harr
    · cases vc with
      | str s => exact absurd rfl (harr s)
      | loopArr l =>
        simp [founderIFallback, shareReadStr, hcash, hguard.1, hguard.2.1, hguard.2.2]
      | groupArr l =>
        simp [founderIFallback, shareReadStr, hcash, hguard.1, hguard.2.1, hguard.2.2]
    · cases vf with
      | str s => exact absurd rfl (harr s)
      | loopArr l =>
        cases vc <;>
          simp [founderIFallback, shareReadStr, hcash, hfmv, hguard.1, hguard.2.1, hguard.2.2]
      | groupArr l =>
        cases vc <;>
          simp [founderIFallback, shareReadStr, hcash, hfmv, hguard.1, hguard.2.1, hguard.2.2]
  · intro m hfail
    have hneg : ¬ (¬ lookupTruthy m "Founder1Share" ∧ lookupTruthy m "Founder1Cash" ∧
        lookupTruthy m "FMV") := by
      rcases hfail with hf | hf | hf <;> simp [hf]
    simp only [founder1Fallback, if_neg hneg]
  · intro m i hfail
    have hneg : ¬ (¬ lookupTruthy m ("Founder" ++ natToStr i ++ "Share") ∧
        lookupTruthy m ("Founder" ++ natToStr i ++ "Cash") ∧ lookupTruthy m "FMV") := by
      rcases hfail with hf | hf | hf <;> simp [hf]
    simp only [founderIFallback, if_neg hneg]

theorem founderShare_fallback_characterization_witness :
    founder1Fallback [("Founder1Cash", .str "0"), ("FMV", .str "$5")] =
      some (setVar [("Founder1Cash", .str "0"), ("FMV", .str "$5")] "Founder1Share"
        (.str (formatNumberWithComma (.num (jsDiv (parseFloatJS (stripDollarComma "0"))
          (parseFloatJS (stripDollarComma "$5"))))))) :=
  (founderShare_fallback_characterization.2.1
    [("Founder1Cash", .str "0"), ("FMV", .str "$5")] "0" "$5"
    (Or.inl (by with_unfolding_all rfl)) (by with_unfolding_all rfl) (by decide)
    (by with_unfolding_all rfl) (by decide)).1
    (by refine ⟨?_, ?_, ?_⟩ <;> with_unfolding_all decide)

/-- C4 counterexample: a founders group with a zero cash amount and a
non-zero FMV. The claim requires `Founder1Share` to be left unset (the cash
amount is not non-zero), but the transformer sets it to `"0"`: the
`Founder1Share` branch never checks the cash amount. -/
theorem founder1Share_zero_cash_counterexample :
    ((transformSurveyToVariables 30
        [⟨"founders", .recList [[("name", "Kim"), ("cash", "0")]], none⟩,
         ⟨"__fairMarketValue", .str "5", none⟩]
        [] {} ⟨2026, 1, 31, 14, 5, 9⟩ "AAAAAA").getD []).lookup "Founder1Share" =
      some (.str "0") := by
  with_unfolding_all decide

/-! ## C8: shape of the values stored in the output map -/

lemma lookup_none_not_mem :
    ∀ {m : VarMap} {k : String}, m.lookup k = none → ∀ v, (k, v) ∉ m := by
  intro m
  induction m with
  | nil =>
    intro k _ v hv
    exact absurd hv (List.not_mem_nil _)
  | cons p t ih =>
    intro k h v hv
    obtain ⟨k1, v1⟩ := p
    by_cases hk : k = k1
    · subst hk
      simp only [List.lookup] at h
      rw [beq_self_eq_true k] at h
      exact Option.noConfusion h
    · simp only [List.lookup] at h
      rw [beq_eq_false_iff_ne.mpr hk] at h
      rcases List.mem_cons.mp hv with hph | hvt
      · exact hk (congrArg Prod.fst hph)
      · exact ih h v hvt

lemma mem_of_lookup :
    ∀ {m : VarMap} {k : String} {v : Value}, m.lookup k = some v → (k, v) ∈ m := by
  intro m
  induction m with
  | nil =>
    intro k v h
    exact Option.noConfusion h
  | cons p t ih =>
    intro k v h
    obtain ⟨k1, v1⟩ := p
    by_cases hk : k = k1
    · subst hk
      simp only [List.lookup] at h
      rw [beq_self_eq_true k] at h
      obtain rfl := Option.some.inj h
      exact List.mem_cons_self _ _
    · simp only [List.lookup] at h
      rw [beq_eq_false_iff_ne.mpr hk] at h
      exact List.mem_cons_of_mem _ (ih h)

lemma mem_setVar {m : VarMap} {k : String} {v : Value} {kv : String × Value}
    (h : kv ∈ setVar m k v) : (kv ∈ m ∧ kv.1 ≠ k) ∨ kv = (k, v) := by
  unfold setVar at h
  by_cases hl : (m.lookup k).isSome
  · rw [if_pos hl] at h
    rcases List.mem_map.mp h with ⟨p, hp, hfp⟩
    by_cases hpk : p.1 = k
    · right
      rw [← hfp, if_pos hpk]
    · left
      rw [← hfp, if_neg hpk]
      exact ⟨hp, hpk⟩
  · rw [if_neg hl] at h
    rcases List.mem_append.mp h with hm | hkv
    · left
      refine ⟨hm, fun hk1 => ?_⟩
      have hnone : m.lookup k = none := Option.not_isSome_iff_eq_none.mp hl
      exact lookup_none_not_mem hnone kv.2 (by rw [← hk1]; simpa using hm)
    · right
      simpa using hkv

lemma mem_setVar' {m : VarMap} {k : String} {v : Value} {kv : String × Value}
    (h : kv ∈ setVar m k v) : kv ∈ m ∨ kv = (k, v) :=
  (mem_setVar h).imp And.left id

/-- The C8 invariant: every stored value is a plain string or a
repeated-group array (no other value shape ever enters the map). -/
def ValuesStrOrGroup (m : VarMap) : Prop :=
  ∀ kv ∈ m, (∃ s, kv.2 = Value.str s) ∨ ∃ l, kv.2 = Value.groupArr l

lemma valuesStrOrGroup_nil : ValuesStrOrGroup [] := by
  intro kv hkv
  exact absurd hkv (List.not_mem_nil kv)

lemma valuesStrOrGroup_setVar {m : VarMap} {k : String} {v : Value}
    (h : ValuesStrOrGroup m)
    (hv : (∃ s, v = Value.str s) ∨ ∃ l, v = Value.groupArr l) :
    ValuesStrOrGroup (setVar m k v) := by
  intro kv hkv
  rcases mem_setVar' hkv with hm | hkv2
  · exact h kv hm
  · rw [hkv2]
    exact hv

lemma valuesStrOrGroup_setVarStr {m : VarMap} {k : String} {s : String}
    (h : ValuesStrOrGroup m) : ValuesStrOrGroup (setVar m k (.str s)) :=
  valuesStrOrGroup_setVar h (Or.inl ⟨s, rfl⟩)

lemma valuesStrOrGroup_setVarCopy {m : VarMap} {k k' : String}
    (h : ValuesStrOrGroup m) :
    ValuesStrOrGroup (setVar m k ((m.lookup k').getD (.str ""))) := by
  apply valuesStrOrGroup_setVar h
  cases hl : m.lookup k' with
  | none => exact Or.inl ⟨"", rfl⟩
  | some v => simpa using h (k', v) (mem_of_lookup hl)

lemma mem_foldl_or {α : Type} {f : VarMap → α → VarMap} {P : α → (String × Value) → Prop}
    (hstep : ∀ m a kv, kv ∈ f m a → kv ∈ m ∨ P a kv) :
    ∀ (l : List α) (m : VarMap) (kv : String × Value),
      kv ∈ l.foldl f m → kv ∈ m ∨ ∃ a ∈ l, P a kv := by
  intro l
  induction l with
  | nil =>
    intro m kv h
    exact Or.inl h
  | cons a t ih =>
    intro m kv h
    rcases ih (f m a) kv h with hm | ⟨b, hb, hp⟩
    · rcases hstep m a kv hm with hm2 | hp
      · exact Or.inl hm2
      · exact Or.inr ⟨a, List.mem_cons_self a t, hp⟩
    · exact Or.inr ⟨b, List.mem_cons_of_mem a hb, hp⟩

lemma valuesStrOrGroup_foldl {α : Type} {f : VarMap → α → VarMap}
    (hstep : ∀ m a, ValuesStrOrGroup m → ValuesStrOrGroup (f m a)) :
    ∀ (l : List α) (m : VarMap), ValuesStrOrGroup m → ValuesStrOrGroup (l.foldl f m) := by
  intro l
  induction l with
  | nil =>
    intro m h
    exact h
  | cons a t ih =>
    intro m h
    exact ih (f m a) (hstep m a h)

lemma generateArrayHelperVariables_mem {baseName : String} {items : List String}
    {kv : String × Value} (h : kv ∈ generateArrayHelperVariables baseName items) :
    (∃ s, kv.2 = Value.str s) ∨ kv.1 = baseName := by
  simp only [generateArrayHelperVariables] at h
  rcases mem_setVar' h with h | hkv
  swap
  · right
    rw [hkv]
  rcases mem_foldl_or (P := fun _ kv => ∃ s, kv.2 = Value.str s)
      (fun mm a kv hk => (mem_setVar' hk).imp id (fun he => ⟨a.2, by rw [he]⟩))
      items.enum _ kv h with h | ⟨_, _, hs⟩
  swap
  · exact Or.inl hs
  rcases mem_setVar' h with h | hkv
  swap
  · exact Or.inl ⟨_, by rw [hkv]⟩
  rcases mem_setVar' h with h | hkv
  swap
  · exact Or.inl ⟨_, by rw [hkv]⟩
  rcases mem_setVar' h with h | hkv
  swap
  · exact Or.inl ⟨_, by rw [hkv]⟩
  by_cases hlen : 0 < items.length
  · rw [if_pos hlen] at h
    rcases mem_setVar' h with h | hkv
    swap
    · exact Or.inl ⟨_, by rw [hkv]⟩
    rcases mem_setVar' h with h | hkv
    swap
    · exact Or.inl ⟨_, by rw [hkv]⟩
    rcases mem_setVar' h with h | hkv
    swap
    · exact Or.inl ⟨_, by rw [hkv]⟩
    rcases mem_setVar' h with h | hkv
    swap
    · exact Or.inl ⟨_, by rw [hkv]⟩
    rcases mem_setVar' h with h | hkv
    swap
    · exact Or.inl ⟨_, by rw [hkv]⟩
    rcases mem_setVar' h with h | hkv
    swap
    · exact Or.inl ⟨_, by rw [hkv]⟩
    exact absurd h (List.not_mem_nil kv)
  · rw [if_neg hlen] at h
    rcases mem_setVar' h with h | hkv
    swap
    · exact Or.inl ⟨_, by rw [hkv]⟩
    rcases mem_setVar' h with h | hkv
    swap
    · exact Or.inl ⟨_, by rw [hkv]⟩
    rcases mem_setVar' h with h | hkv
    swap
    · exact Or.inl ⟨_, by rw [hkv]⟩
    rcases mem_setVar' h with h | hkv
    swap
    · exact Or.inl ⟨_, by rw [hkv]⟩
    exact absurd h (List.not_mem_nil kv)

lemma valuesStrOrGroup_mappingStringArray {m : VarMap} {k : String}
    {mp : VariableMapping} {items : List String} (h : ValuesStrOrGroup m) :
    ValuesStrOrGroup (mappingStringArray m k mp items) := by
  intro kv hkv
  simp only [mappingStringArray] at hkv
  rcases mem_setVar hkv with ⟨hin, hne⟩ | hkv2
  swap
  · exact Or.inl ⟨_, by rw [hkv2]⟩
  rcases mem_foldl_or (P := fun a kv => kv = a)
      (fun mm a kv hk => (mem_setVar' hk).imp id (fun he => by rw [he]))
      (generateArrayHelperVariables k items) _ kv hin with hm | ⟨a, ha, hp⟩
  · exact h kv hm
  · rcases generateArrayHelperVariables_mem (hp ▸ ha) with hs | hbase
    · exact Or.inl hs
    · exact absurd (hp ▸ hbase) hne

lemma valuesStrOrGroup_processGroupField {baseName : String}
    {groupItems : List (List (String × String))} {m : VarMap} {fieldName : String}
    (h : ValuesStrOrGroup m) :
    ValuesStrOrGroup (processGroupField baseName groupItems m fieldName) := by
  simp only [processGroupField]
  apply valuesStrOrGroup_foldl
    (fun mm p hmm =>
      valuesStrOrGroup_setVarStr (valuesStrOrGroup_setVarStr (valuesStrOrGroup_setVarStr hmm)))
  exact valuesStrOrGroup_setVarStr (valuesStrOrGroup_setVarStr (valuesStrOrGroup_setVarStr h))

lemma valuesStrOrGroup_processGroup {m : VarMap} {r : SurveyResponse}
    (h : ValuesStrOrGroup m) : ValuesStrOrGroup (processGroup m r) := by
  rcases hv : r.value with s | l | l
  · simpa [processGroup, hv] using h
  · simpa [processGroup, hv] using h
  · cases l with
    | nil => simpa [processGroup, hv] using h
    | cons g0 gs =>
      simp only [processGroup, hv]
      refine valuesStrOrGroup_setVar ?_ (Or.inr ⟨_, rfl⟩)
      apply valuesStrOrGroup_foldl (fun mm a hmm => valuesStrOrGroup_processGroupField hmm)
      exact valuesStrOrGroup_setVarStr (valuesStrOrGroup_setVarStr (valuesStrOrGroup_setVarStr h))

lemma valuesStrOrGroup_currentDateBlock {now : DateParts} {m : VarMap} {outName : String}
    (h : ValuesStrOrGroup m) : ValuesStrOrGroup (currentDateBlock now m outName) :=
  valuesStrOrGroup_setVarStr (valuesStrOrGroup_setVarStr
    (valuesStrOrGroup_setVarStr (valuesStrOrGroup_setVarStr h)))

lemma valuesStrOrGroup_adminDateBlock {rs : List SurveyResponse} {now : DateParts}
    {m : VarMap} {qid outName : String} (h : ValuesStrOrGroup m) :
    ValuesStrOrGroup (adminDateBlock rs now m qid outName) := by
  unfold adminDateBlock
  cases rs.find? (fun r => r.questionId = qid) with
  | none => exact valuesStrOrGroup_currentDateBlock h
  | some r =>
    by_cases ht : jsvTruthy r.value
    · simp only [if_pos ht]
      exact valuesStrOrGroup_setVarStr (valuesStrOrGroup_setVarStr
        (valuesStrOrGroup_setVarStr (valuesStrOrGroup_setVarStr h)))
    · simp only [if_neg ht]
      exact valuesStrOrGroup_currentDateBlock h

lemma valuesStrOrGroup_autoVariables {rs : List SurveyResponse} {opts : TransformOptions}
    {now : DateParts} {rand : String} :
    ValuesStrOrGroup (autoVariables rs opts now rand) := by
  simp only [autoVariables]
  apply valuesStrOrGroup_adminDateBlock
  apply valuesStrOrGroup_adminDateBlock
  exact valuesStrOrGroup_setVarStr (valuesStrOrGroup_setVarStr (valuesStrOrGroup_setVarStr
    (valuesStrOrGroup_setVarStr (valuesStrOrGroup_setVarStr (valuesStrOrGroup_setVarStr
      (valuesStrOrGroup_setVarStr valuesStrOrGroup_nil))))))

lemma valuesStrOrGroup_adminShareValues {rs : List SurveyResponse} {m : VarMap}
    (h : ValuesStrOrGroup m) : ValuesStrOrGroup (adminShareValues rs m) := by
  simp only [adminShareValues]
  repeat' split
  all_goals
    repeat
      first
        | exact h
        | apply valuesStrOrGroup_setVarStr

lemma valuesStrOrGroup_processMapping {rs : List SurveyResponse} {m : VarMap}
    {mp : VariableMapping} (h : ValuesStrOrGroup m) :
    ValuesStrOrGroup (processMapping rs m mp) := by
  simp only [processMapping]
  split
  · repeat' split
    all_goals first | exact h | exact valuesStrOrGroup_setVarStr h
  split
  · exact h
  split
  · repeat' split
    all_goals first | exact valuesStrOrGroup_setVarCopy h | exact valuesStrOrGroup_setVarStr h
  split
  · repeat' split
    all_goals first | exact valuesStrOrGroup_setVarCopy h | exact valuesStrOrGroup_setVarStr h
  split
  · repeat' split
    all_goals first | exact valuesStrOrGroup_setVarCopy h | exact valuesStrOrGroup_setVarStr h
  · split
    · exact valuesStrOrGroup_setVarStr h
    · split
      · repeat' split
        all_goals exact valuesStrOrGroup_setVarStr h
      · exact valuesStrOrGroup_mappingStringArray h
      · exact h
      · exact valuesStrOrGroup_mappingStringArray h

lemma valuesStrOrGroup_processCalculated {fuel : ℕ} {m m' : VarMap}
    {mp : VariableMapping} (h : ValuesStrOrGroup m)
    (hp : processCalculated fuel m mp = some m') : ValuesStrOrGroup m' := by
  simp only [processCalculated] at hp
  repeat' split at hp
  all_goals
    first
      | exact Option.noConfusion hp
      | (obtain rfl := Option.some.inj hp
         first
           | exact h
           | exact valuesStrOrGroup_setVarStr h)

lemma valuesStrOrGroup_processCalculatedList {fuel : ℕ} :
    ∀ (ms : List VariableMapping) (m m' : VarMap), ValuesStrOrGroup m →
      processCalculatedList fuel ms m = some m' → ValuesStrOrGroup m' := by
  intro ms
  induction ms with
  | nil =>
    intro m m' h hp
    rw [processCalculatedList] at hp
    obtain rfl := Option.some.inj hp
    exact h
  | cons mp rest ih =>
    intro m m' h hp
    rw [processCalculatedList] at hp
    cases hc : processCalculated fuel m mp with
    | none => rw [hc] at hp; simp at hp
    | some m2 =>
      rw [hc] at hp
      exact ih m2 m' (valuesStrOrGroup_processCalculated h hc) hp

lemma valuesStrOrGroup_founder1Fallback {m m' : VarMap} (h : ValuesStrOrGroup m)
    (hp : founder1Fallback m = some m') : ValuesStrOrGroup m' := by
  simp only [founder1Fallback] at hp
  repeat' split at hp
  all_goals
    first
      | exact Option.noConfusion hp
      | (obtain rfl := Option.some.inj hp
         first
           | exact h
           | exact valuesStrOrGroup_setVarStr h)

lemma valuesStrOrGroup_founderIFallback {m m' : VarMap} {i : ℕ} (h : ValuesStrOrGroup m)
    (hp : founderIFallback m i = some m') : ValuesStrOrGroup m' := by
  simp only [founderIFallback] at hp
  repeat' split at hp
  all_goals
    first
      | exact Option.noConfusion hp
      | (obtain rfl := Option.some.inj hp
         first
           | exact h
           | exact valuesStrOrGroup_setVarStr h)

lemma founderFold_none (l : List ℕ) :
    l.foldl (fun acc i => match acc with
      | none => none
      | some mm => founderIFallback mm i) none = none := by
  induction l with
  | nil => rfl
  | cons i t ih => simpa using ih

lemma valuesStrOrGroup_founderFold :
    ∀ (l : List ℕ) (m m' : VarMap), ValuesStrOrGroup m →
      l.foldl (fun acc i => match acc with
        | none => none
        | some mm => founderIFallback mm i) (some m) = some m' →
      ValuesStrOrGroup m' := by
  intro l
  induction l with
  | nil =>
    intro m m' h hp
    obtain rfl := Option.some.inj hp
    exact h
  | cons i t ih =>
    intro m m' h hp
    simp only [List.foldl_cons] at hp
    cases hi : founderIFallback m i with
    | none =>
      rw [hi] at hp
      rw [founderFold_none] at hp
      simp at hp
    | some m2 =>
      rw [hi] at hp
      exact ih m2 m' (valuesStrOrGroup_founderIFallback h hi) hp

lemma valuesStrOrGroup_shareFallback {m m' : VarMap} (h : ValuesStrOrGroup m)
    (hp : shareFallback m = some m') : ValuesStrOrGroup m' := by
  unfold shareFallback at hp
  cases h1 : founder1Fallback m with
  | none => rw [h1] at hp; simp at hp
  | some m1 =>
    rw [h1] at hp
    exact valuesStrOrGroup_founderFold _ m1 m' (valuesStrOrGroup_founder1Fallback h h1) hp

/-- C8: whenever `transformSurveyToVariables` returns a map, every binding
holds a plain string or a repeated-group array — no `undefined` (absent
binding) and no other value shape is ever stored; in particular every
scalar-projected key holds a string. -/
theorem transform_values_never_undefined (fuel : ℕ) (rs : List SurveyResponse)
    (ms : List VariableMapping) (opts : TransformOptions) (now : DateParts)
    (rand : String) (m : VarMap)
    (h : transformSurveyToVariables fuel rs ms opts now rand = some m) :
    ∀ kv ∈ m, (∃ s, kv.2 = Value.str s) ∨ ∃ l, kv.2 = Value.groupArr l := by
  have h0 : ValuesStrOrGroup (autoVariables rs opts now rand) := valuesStrOrGroup_autoVariables
  have h1 := valuesStrOrGroup_foldl
    (fun mm r hmm => valuesStrOrGroup_processGroup (r := r) hmm) rs _ h0
  have h2 := @valuesStrOrGroup_adminShareValues rs _ h1
  have h3 := valuesStrOrGroup_foldl
    (fun mm mp hmm => @valuesStrOrGroup_processMapping rs mm mp hmm) ms _ h2
  simp only [transformSurveyToVariables] at h
  cases hc : processCalculatedList fuel ms
      (ms.foldl (processMapping rs)
        (adminShareValues rs (rs.foldl processGroup (autoVariables rs opts now rand)))) with
  | none => rw [hc] at h; simp at h
  | some m2 =>
    rw [hc] at h
    exact valuesStrOrGroup_shareFallback
      (valuesStrOrGroup_processCalculatedList ms _ m2 h3 hc) h

theorem transform_values_never_undefined_witness :
    (∃ s, (("currentYear", Value.str "2026") : String × Value).2 = Value.str s) ∨
      ∃ l, (("currentYear", Value.str "2026") : String × Value).2 = Value.groupArr l :=
  transform_values_never_undefined 30 [] [] {} ⟨2026, 1, 31, 14, 5, 9⟩ "AAAAAA"
    ((transformSurveyToVariables 30 [] [] {} ⟨2026, 1, 31, 14, 5, 9⟩ "AAAAAA").getD [])
    (by with_unfolding_all rfl)
    ("currentYear", Value.str "2026") (by with_unfolding_all decide)

end DocGen
